import Mathlib

/-!
TrashTracker web client.

A shallow embedding of the offline cache controller of the service worker
(`web-app/public/sw.js`): the `install`, `fetch`, `activate`, `sync`, `push`
and `notificationclick` handlers, together with a small model of the browser
facilities they call (the Cache API, the network, the queue storage
functions). Four pieces of the application follow: the response interceptor
of the api client, the image check of the report form, the filter effect of
the report list and the route guards of the application.

Every browser call that can fail is decided by a `Platform` value, so that a
statement quantified over all platforms covers every behaviour of the cache
API and of the network.  Each handler returns what its promise settles to
and the list of platform calls it made, in order.
-/

set_option autoImplicit false

namespace TrashTracker
namespace ServiceWorker

/-! ## Data model -/

/-- Line 1: `const CACHE_NAME = 'rashtrackr-v1'`. -/
def CACHE_NAME : String := "rashtrackr-v1"

/-- Lines 2-10: the install manifest. -/
def urlsToCache : List String :=
  ["/", "/static/js/bundle.js", "/static/css/main.css", "/manifest.json",
   "/favicon.ico", "/logo192.png", "/logo512.png"]

/-- An intercepted request: the fields of `event.request` the handlers read
(`mode`) or the Cache API keys on (`method`, `url`). URLs are written relative
to the origin of the worker, as in the manifest. -/
structure Request where
  method : String
  url : String
  mode : String
deriving DecidableEq, Repr

/-- A `Response` object: the fields the handlers read (`status`, `type`) and
the ones a stored copy preserves. -/
structure Response where
  status : Nat
  statusText : String
  type : String
  redirected : Bool
  headers : List (String × String)
  body : List Nat
deriving DecidableEq, Repr

/-- The `ok` flag of a response: the status is in the range 200-299. -/
def Response.ok (r : Response) : Bool := decide (200 ≤ r.status) && decide (r.status ≤ 299)

/-- The value of `new Response('', { status, statusText })`. -/
def synthetic (status : Nat) (statusText : String) : Response :=
  { status := status, statusText := statusText, type := "default", redirected := false,
    headers := [("content-type", "text/plain;charset=UTF-8")], body := [] }

/-- How a promise (or an awaited call) ends. -/
inductive Settled (α : Type) where
  | fulfilled (value : α)
  | rejected (reason : String)
deriving DecidableEq, Repr

/-- A value the network promise can resolve to; line 31 tests
`!response || !(response instanceof Response)`. -/
inductive JSValue where
  | undefined
  | notAResponse
  | response (r : Response)
deriving DecidableEq, Repr

/-- A queued offline report: the fields `doBackgroundSync` reads. -/
structure Report where
  id : Nat
  token : String
  data : String
deriving DecidableEq, Repr

/-- The arguments of the `fetch('/api/reports', {...})` call of lines 137-144. -/
structure PostRequest where
  url : String
  method : String
  headers : List (String × String)
  body : String
deriving DecidableEq, Repr

/-! ## The Cache API -/

/-- One cache store: its entries, oldest first. -/
abbrev Cache := List (Request × Response)

/-- The `caches` object: the named stores, in creation order. -/
abbrev CacheStorage := List (String × Cache)

/-- The characters of a URL up to its fragment, the part the Cache API
compares. -/
def withoutFragment (url : String) : List Char := url.toList.takeWhile (fun c => c != '#')

/-- Cache API request matching with default options: only a `GET` query
matches, and it matches a stored request whose URL is the same once the
fragments are set aside (`/#top` matches a stored `/`). The `Vary` header of a
stored response, which can only turn a match into a miss for a request with
other headers, is not modelled: requests carry no headers here. -/
def requestMatches (stored query : Request) : Bool :=
  query.method == "GET" && withoutFragment stored.url == withoutFragment query.url

/-- The result of `cache.match(query)`: the first matching entry. -/
def Cache.lookup (c : Cache) (query : Request) : Option Response :=
  (c.find? (fun e => requestMatches e.1 query)).map (fun e => e.2)

/-- The result of `caches.match(query)`: the stores are searched in creation
order and the first hit is returned. -/
def CacheStorage.lookup (cs : CacheStorage) (query : Request) : Option Response :=
  cs.findSome? (fun s => Cache.lookup s.2 query)

/-- The result of `caches.keys()`. -/
def CacheStorage.keys (cs : CacheStorage) : List String := cs.map (fun s => s.1)

/-- The effect of `caches.open(name)`: the store is created when absent. -/
def CacheStorage.openStore (cs : CacheStorage) (name : String) : CacheStorage :=
  if cs.any (fun s => s.1 == name) then cs else cs ++ [(name, [])]

/-- The effect of a successful `cache.put(request, response)` on one store:
entries matching the request are replaced. -/
def Cache.put (c : Cache) (request : Request) (response : Response) : Cache :=
  c.filter (fun e => !requestMatches e.1 request) ++ [(request, response)]

/-- The effect of a successful `cache.put` on the store called `name`. -/
def CacheStorage.putIn (cs : CacheStorage) (name : String) (request : Request)
    (response : Response) : CacheStorage :=
  cs.map (fun s => if s.1 == name then (s.1, Cache.put s.2 request response) else s)

/-- The effect of a successful `caches.delete(name)`. -/
def CacheStorage.deleteStore (cs : CacheStorage) (name : String) : CacheStorage :=
  cs.filter (fun s => s.1 != name)

/-- The request `caches.match('/offline.html')` looks up (line 44). -/
def offlineKey : Request := { method := "GET", url := "/offline.html", mode := "cors" }

/-! ## Platform behaviour and observable calls -/

/-- Everything the browser decides: what the network answers and which cache
or storage calls fail. -/
structure Platform where
  /-- The outcome of `fetch(event.request)`. -/
  network : Request → Settled JSValue
  /-- The outcome of the `idx`-th replay `fetch('/api/reports', ...)` of a pass. -/
  replay : Nat → PostRequest → Settled Response
  /-- Whether `caches.match(key)` rejects. -/
  matchFails : Request → Bool
  /-- Whether `response.clone()` throws. -/
  cloneFails : Response → Bool
  /-- Whether `caches.open(name)` throws synchronously. -/
  openThrows : String → Bool
  /-- Whether the promise of `caches.open(name)` rejects. -/
  openRejects : String → Bool
  /-- Whether `cache.put(request, response)` rejects for a reason of its own. -/
  putRejects : Request → Response → Bool
  /-- Whether `caches.keys()` rejects. -/
  keysRejects : Bool
  /-- Whether `caches.delete(name)` rejects. -/
  deleteRejects : String → Bool
  /-- The value of `JSON.stringify(report.data)`. -/
  stringify : String → String

/-- A platform call made by a handler. -/
inductive Effect where
  | cachesMatch (key : Request)
  | fetch (request : Request)
  | clone (response : Response)
  | cachesOpen (name : String)
  | cachePut (name : String) (request : Request) (response : Response)
  | cachesKeys
  | cachesDelete (name : String)
  | getOfflineReports
  | fetchPost (request : PostRequest)
  | removeOfflineReport (id : Nat)
  | consoleError (message : String)
  | cacheAddAll (name : String) (urls : List String)
  | showNotification (title body : String)
  | notificationClose
  | openWindow (url : String)
deriving DecidableEq, Repr

/-- The promise chain `caches.open(name).then(cache => cache.put(request, response))`
that lines 38-40 start and do not await. -/
structure Detached where
  name : String
  request : Request
  response : Response
deriving DecidableEq, Repr

/-! ## The fetch handler (lines 24-53) -/

/-- The outcome of a block of the handler: how it ended, the calls it made
and the promise chain it left running. -/
structure Served where
  settled : Settled Response
  effects : List Effect
  detached : Option Detached
deriving DecidableEq, Repr

/-- Lines 30-41, the body of the inner `try`. -/
def innerTry (p : Platform) (request : Request) : Served :=
  match p.network request with
  | .rejected reason => ⟨.rejected reason, [.fetch request], none⟩
  | .fulfilled (.response response) =>
    if response.status ≠ 200 ∨ response.type ≠ "basic" then
      ⟨.fulfilled response, [.fetch request], none⟩
    else if p.cloneFails response then
      ⟨.rejected "clone", [.fetch request, .clone response], none⟩
    else if p.openThrows CACHE_NAME then
      ⟨.rejected "caches.open", [.fetch request, .clone response, .cachesOpen CACHE_NAME], none⟩
    else
      ⟨.fulfilled response, [.fetch request, .clone response, .cachesOpen CACHE_NAME],
        some ⟨CACHE_NAME, request, response⟩⟩
  | .fulfilled _ =>
    ⟨.fulfilled (synthetic 503 "Service Unavailable"), [.fetch request], none⟩

/-- Lines 42-48, the inner `catch`. -/
def innerCatch (p : Platform) (cs : CacheStorage) (request : Request) : Served :=
  if request.mode = "navigate" then
    if p.matchFails offlineKey then
      ⟨.rejected "caches.match", [.cachesMatch offlineKey], none⟩
    else
      match cs.lookup offlineKey with
      | some offline => ⟨.fulfilled offline, [.cachesMatch offlineKey], none⟩
      | none => ⟨.fulfilled (synthetic 503 "Offline"), [.cachesMatch offlineKey], none⟩
  else
    ⟨.fulfilled (synthetic 503 "Service Unavailable"), [], none⟩

/-- Lines 27-48, the body of the outer `try`. -/
def outerTry (p : Platform) (cs : CacheStorage) (request : Request) : Served :=
  if p.matchFails request then
    ⟨.rejected "caches.match", [.cachesMatch request], none⟩
  else
    match cs.lookup request with
    | some cached => ⟨.fulfilled cached, [.cachesMatch request], none⟩
    | none =>
      let t := innerTry p request
      match t.settled with
      | .fulfilled response =>
        ⟨.fulfilled response, .cachesMatch request :: t.effects, t.detached⟩
      | .rejected _ =>
        let c := innerCatch p cs request
        ⟨c.settled, .cachesMatch request :: (t.effects ++ c.effects), t.detached⟩

/-- Lines 25-51, the async function: the outer `try` and its `catch`. -/
def asyncBody (p : Platform) (cs : CacheStorage) (request : Request) : Served :=
  let t := outerTry p cs request
  match t.settled with
  | .fulfilled response => ⟨.fulfilled response, t.effects, t.detached⟩
  | .rejected _ =>
    ⟨.fulfilled (synthetic 500 "Service Worker Error"), t.effects, t.detached⟩

/-- Lines 24-53: the promise passed to `event.respondWith`, the async
function followed by `.catch(() => new Response('', { status: 500, ... }))`. -/
def fetchHandler (p : Platform) (cs : CacheStorage) (request : Request) : Served :=
  let t := asyncBody p cs request
  match t.settled with
  | .fulfilled response => ⟨.fulfilled response, t.effects, t.detached⟩
  | .rejected _ =>
    ⟨.fulfilled (synthetic 500 "Service Worker Error"), t.effects, t.detached⟩

/-- The cache storage once a detached `caches.open(name).then(put)` chain has
run: the store is opened (created when absent) unless `open` rejects, and the
entry is written unless `put` rejects; the Cache API rejects a `put` whose
request method is not `GET`. -/
def settleDetached (p : Platform) (cs : CacheStorage) (d : Detached) : CacheStorage :=
  if p.openRejects d.name then cs
  else if d.request.method ≠ "GET" ∨ p.putRejects d.request d.response then
    cs.openStore d.name
  else (cs.openStore d.name).putIn d.name d.request d.response

/-- The cache storage after a request has been served and the promise chain
the handler left running, if any, has finished. -/
def storageAfter (p : Platform) (cs : CacheStorage) (request : Request) : CacheStorage :=
  match (fetchHandler p cs request).detached with
  | some d => settleDetached p cs d
  | none => cs

/-- Whether a handler run called the network. -/
def callsNetwork (effects : List Effect) : Bool :=
  effects.any (fun e => match e with
    | .fetch _ => true
    | .fetchPost _ => true
    | _ => false)

/-! ## The activate handler (lines 56-69) -/

/-- The outcome of the activate handler: how the promise given to
`event.waitUntil` settled, the cache stores left and the calls made. -/
structure Activated where
  settled : Settled Unit
  storage : CacheStorage
  effects : List Effect

/-- Lines 60-65: the names for which the `map` callback calls `caches.delete`. -/
def staleNames (cacheNames : List String) : List String :=
  cacheNames.filter (fun cacheName => cacheName ≠ CACHE_NAME)

/-- Lines 56-69. `caches.keys()` lists the stores; `caches.delete` is called
for every name other than `CACHE_NAME`; `Promise.all` rejects when one of the
deletions does. -/
def activateHandler (p : Platform) (cs : CacheStorage) : Activated :=
  if p.keysRejects then ⟨.rejected "caches.keys", cs, [.cachesKeys]⟩
  else
    let stale := staleNames cs.keys
    let storage := stale.foldl
      (fun s cacheName => if p.deleteRejects cacheName then s else s.deleteStore cacheName) cs
    ⟨if stale.any p.deleteRejects then .rejected "caches.delete" else .fulfilled (),
      storage, .cachesKeys :: stale.map .cachesDelete⟩

/-! ## Background sync (lines 119-170) -/

/-- Line 120: `const MIN_SYNC_INTERVAL = 5 * 60 * 1000`, in milliseconds. -/
def MIN_SYNC_INTERVAL : Int := 5 * 60 * 1000

/-- The queue storage functions `doBackgroundSync` calls: what
`getOfflineReports()` resolves to and how `removeOfflineReport(id)` ends. -/
structure Storage where
  getOfflineReports : Settled (List Report)
  removeOfflineReport : Nat → Settled Unit

/-- Lines 160-164: the storage function of the source, which returns `[]`. -/
def getOfflineReports : Settled (List Report) := .fulfilled []

/-- Lines 166-170: the storage function of the source, which only logs. -/
def removeOfflineReport (_id : Nat) : Settled Unit := .fulfilled ()

/-- The storage functions as the source defines them. -/
def referenceStorage : Storage := ⟨getOfflineReports, removeOfflineReport⟩

/-- Lines 137-144: the request replaying one report. -/
def replayRequest (p : Platform) (report : Report) : PostRequest :=
  { url := "/api/reports", method := "POST",
    headers := [("Content-Type", "application/json"),
                ("Authorization", "Bearer " ++ report.token)],
    body := p.stringify report.data }

/-- Lines 135-152: one iteration of the loop, the per-item `try`/`catch`. -/
def replayItem (p : Platform) (st : Storage) (idx : Nat) (report : Report) : List Effect :=
  match p.replay idx (replayRequest p report) with
  | .rejected _ =>
    [.fetchPost (replayRequest p report), .consoleError "Failed to sync report:"]
  | .fulfilled response =>
    if response.ok then
      match st.removeOfflineReport report.id with
      | .fulfilled _ =>
        [.fetchPost (replayRequest p report), .removeOfflineReport report.id]
      | .rejected _ =>
        [.fetchPost (replayRequest p report), .removeOfflineReport report.id,
          .consoleError "Failed to sync report:"]
    else [.fetchPost (replayRequest p report)]

/-- Lines 134-153: the `for ... of` loop, from the item at position `idx` on. -/
def replayLoop (p : Platform) (st : Storage) : Nat → List Report → List Effect
  | _, [] => []
  | idx, report :: rest => replayItem p st idx report ++ replayLoop p st (idx + 1) rest

/-- Lines 131-153, the body of the `try` of `doBackgroundSync`. -/
def syncTry (p : Platform) (st : Storage) : Settled Unit × List Effect :=
  match st.getOfflineReports with
  | .rejected reason => (.rejected reason, [.getOfflineReports])
  | .fulfilled offlineReports =>
    (.fulfilled (), .getOfflineReports :: replayLoop p st 0 offlineReports)

/-- The outcome of one call of `doBackgroundSync`: the module variable
`lastSyncTime` afterwards, how the returned promise settled, the calls made. -/
structure SyncRun where
  lastSyncTime : Int
  settled : Settled Unit
  effects : List Effect
deriving DecidableEq, Repr

/-- Lines 123-157, given the storage functions, the value of `lastSyncTime`
and the value `Date.now()` returns. -/
def doBackgroundSync (p : Platform) (st : Storage) (lastSyncTime now : Int) : SyncRun :=
  if now - lastSyncTime < MIN_SYNC_INTERVAL then
    ⟨lastSyncTime, .fulfilled (), []⟩
  else
    match syncTry p st with
    | (.fulfilled _, effects) => ⟨now, .fulfilled (), effects⟩
    | (.rejected _, effects) =>
      ⟨now, .fulfilled (), effects ++ [.consoleError "Background sync failed:"]⟩

/-- The ids `removeOfflineReport` was called with, in order. -/
def removedIds (effects : List Effect) : List Nat :=
  effects.filterMap (fun e => match e with
    | .removeOfflineReport id => some id
    | _ => none)

/-- The replay requests issued, in order. -/
def replayed (effects : List Effect) : List PostRequest :=
  effects.filterMap (fun e => match e with
    | .fetchPost request => some request
    | _ => none)

/-- Whether the replay of the report at position `idx` returned an ok response. -/
def replayAcknowledged (p : Platform) (idx : Nat) (report : Report) : Bool :=
  match p.replay idx (replayRequest p report) with
  | .fulfilled response => response.ok
  | .rejected _ => false

/-! ## The install handler (lines 13-21) -/

/-- The request `cache.addAll` builds from a manifest URL. -/
def manifestRequest (url : String) : Request := { method := "GET", url := url, mode := "cors" }

/-- What `cache.addAll` keeps of one URL: the Cache API fetches it, and the
entry fails, which rejects the whole call, unless the fetch resolves to a
response whose status is ok and is not 206 and the write of the entry is not
rejected. -/
def addAllEntry (p : Platform) (url : String) : Option (Request × Response) :=
  match p.network (manifestRequest url) with
  | .fulfilled (.response response) =>
    if response.ok && response.status != 206 && !p.putRejects (manifestRequest url) response then
      some (manifestRequest url, response)
    else none
  | _ => none

/-- The entries `cache.addAll(urls)` is about to write, when every URL was
fetched; `none` when one of them failed. -/
def addAllEntries (p : Platform) : List String → Option (List (Request × Response))
  | [] => some []
  | url :: rest =>
    match addAllEntry p url, addAllEntries p rest with
    | some e, some es => some (e :: es)
    | _, _ => none

/-- The effect of writing a batch of entries to the store called `name`. -/
def CacheStorage.putAllIn (cs : CacheStorage) (name : String)
    (entries : List (Request × Response)) : CacheStorage :=
  entries.foldl (fun s e => s.putIn name e.1 e.2) cs

/-- The outcome of the install handler: how the promise given to
`event.waitUntil` settled, the cache stores afterwards and the calls made. -/
structure Installed where
  settled : Settled Unit
  storage : CacheStorage
  effects : List Effect

/-- Lines 13-21. `caches.open(CACHE_NAME)` creates the store when absent;
`cache.addAll(urlsToCache)` writes all the fetched entries together, or
rejects and writes none. -/
def installHandler (p : Platform) (cs : CacheStorage) : Installed :=
  if p.openThrows CACHE_NAME || p.openRejects CACHE_NAME then
    ⟨.rejected "caches.open", cs, [.cachesOpen CACHE_NAME]⟩
  else
    match addAllEntries p urlsToCache with
    | none =>
      ⟨.rejected "cache.addAll", cs.openStore CACHE_NAME,
        [.cachesOpen CACHE_NAME, .cacheAddAll CACHE_NAME urlsToCache]⟩
    | some entries =>
      ⟨.fulfilled (), (cs.openStore CACHE_NAME).putAllIn CACHE_NAME entries,
        [.cachesOpen CACHE_NAME, .cacheAddAll CACHE_NAME urlsToCache]⟩

/-! ## The sync, push and notificationclick handlers (lines 72-117) -/

/-- The outcome of the sync handler: the promise passed to `event.waitUntil`,
when the handler calls it, and `lastSyncTime` afterwards. -/
structure SyncHandled where
  waitUntil : Option SyncRun
  lastSyncTime : Int
deriving DecidableEq, Repr

/-- Lines 72-76: `doBackgroundSync()` is called when the tag is
`'background-sync'`. -/
def syncHandler (p : Platform) (st : Storage) (lastSyncTime now : Int) (tag : String) :
    SyncHandled :=
  if tag = "background-sync" then
    ⟨some (doBackgroundSync p st lastSyncTime now),
      (doBackgroundSync p st lastSyncTime now).lastSyncTime⟩
  else ⟨none, lastSyncTime⟩

/-- Lines 79-106: the push handler shows a notification whose body is the
text of the push data, when there is some. -/
def pushHandler (data : Option String) : List Effect :=
  [.showNotification "RashTrackr" (data.getD "New notification from RashTrackr")]

/-- Lines 109-117: the notificationclick handler. -/
def notificationclickHandler (action : String) : List Effect :=
  .notificationClose :: (if action = "explore" then [.openWindow "/dashboard"] else [])

/-! ## The worker as a whole -/

/-- The state the handlers share: the cache storage and `lastSyncTime`. -/
structure WorkerState where
  caches : CacheStorage
  lastSyncTime : Int
deriving DecidableEq, Repr

/-- An event handled by the worker, other than `activate`. -/
inductive HandlerEvent where
  | install
  | fetch (request : Request)
  | sync (tag : String) (now : Int)
  | push (data : Option String)
  | notificationclick (action : String)
deriving DecidableEq, Repr

/-- The state after one event has been handled, the cache write a fetch
started included. -/
def handle (p : Platform) (st : Storage) (w : WorkerState) : HandlerEvent → WorkerState
  | .install => ⟨(installHandler p w.caches).storage, w.lastSyncTime⟩
  | .fetch request => ⟨storageAfter p w.caches request, w.lastSyncTime⟩
  | .sync tag now => ⟨w.caches, (syncHandler p st w.lastSyncTime now tag).lastSyncTime⟩
  | .push _ => w
  | .notificationclick _ => w

/-- The state after a sequence of events, each under its own platform
behaviour and storage functions. -/
def handleAll (w : WorkerState) (steps : List (Platform × Storage × HandlerEvent)) :
    WorkerState :=
  steps.foldl (fun w step => handle step.1 step.2.1 w step.2.2) w

/-- Whether the store called `name` holds an entry answering `query`. -/
def CacheStorage.holds (cs : CacheStorage) (name : String) (query : Request) : Bool :=
  cs.any (fun s => s.1 == name && (Cache.lookup s.2 query).isSome)

/-! ## Sample inputs -/

/-- A platform on which no call fails, the network answers every request with
a same-origin 200 response and the backend acknowledges every replay. -/
def onlinePlatform : Platform where
  network := fun _ => .fulfilled (.response
    { status := 200, statusText := "OK", type := "basic", redirected := false,
      headers := [("content-type", "application/json")], body := [91, 93] })
  replay := fun _ _ => .fulfilled (synthetic 201 "Created")
  matchFails := fun _ => false
  cloneFails := fun _ => false
  openThrows := fun _ => false
  openRejects := fun _ => false
  putRejects := fun _ _ => false
  keysRejects := false
  deleteRejects := fun _ => false
  stringify := fun data => data

/-- A platform on which no cache call fails and every network call does. -/
def offlinePlatform : Platform :=
  { onlinePlatform with
    network := fun _ => .rejected "Failed to fetch"
    replay := fun _ _ => .rejected "Failed to fetch" }

/-- A navigation to the application shell. -/
def shellRequest : Request := { method := "GET", url := "/", mode := "navigate" }

/-- A same-origin API read. -/
def apiRequest : Request := { method := "GET", url := "/api/reports", mode := "cors" }

/-- A stored copy of the application shell. -/
def shellResponse : Response :=
  { status := 200, statusText := "OK", type := "basic", redirected := false,
    headers := [("content-type", "text/html")], body := [60, 104, 116, 109, 108, 62] }

/-- A cache storage holding the application shell in the current store. -/
def shellStorage : CacheStorage := [(CACHE_NAME, [(shellRequest, shellResponse)])]

/-- A platform on which only the lookup of the offline page fails and the
network is down. -/
def offlineLookupFailing : Platform :=
  { offlinePlatform with matchFails := fun key => key.url == "/offline.html" }

/-- A navigation to a page that is not in the cache. -/
def dashboardRequest : Request := { method := "GET", url := "/dashboard", mode := "navigate" }

/-- A stored offline page. -/
def offlinePage : Response :=
  { status := 200, statusText := "OK", type := "basic", redirected := false,
    headers := [("content-type", "text/html")], body := [111, 102, 102] }

/-- A cache storage whose current store holds the offline page. -/
def offlineStorage : CacheStorage := [(CACHE_NAME, [(offlineKey, offlinePage)])]

/-- A same-origin write. -/
def postRequest : Request := { method := "POST", url := "/api/reports", mode := "cors" }

/-- A same-origin 200 response that was reached through a redirect. -/
def redirectedResponse : Response :=
  { status := 200, statusText := "OK", type := "basic", redirected := true,
    headers := [("content-type", "text/html")], body := [114, 101, 100] }

/-- A platform on which no call fails and the network answers with a
redirected same-origin 200 response. -/
def redirectingPlatform : Platform :=
  { onlinePlatform with network := fun _ => .fulfilled (.response redirectedResponse) }

/-- A platform on which the network answers and `response.clone()` throws. -/
def cloneFailing : Platform := { onlinePlatform with cloneFails := fun _ => true }

/-- A cache storage without any store. -/
def emptyStorage : CacheStorage := []

/-- The response `onlinePlatform` answers every request with. -/
def jsonResponse : Response :=
  { status := 200, statusText := "OK", type := "basic", redirected := false,
    headers := [("content-type", "application/json")], body := [91, 93] }

/-- A platform on which the network answers and the call `caches.open`
throws. -/
def openThrowing : Platform := { onlinePlatform with openThrows := fun _ => true }

/-- A platform on which every cache lookup fails. -/
def lookupFailing : Platform := { onlinePlatform with matchFails := fun _ => true }

/-- A cache storage with two superseded stores around the current one. -/
def threeStores : CacheStorage :=
  [("rashtrackr-v0", [(apiRequest, jsonResponse)]),
   (CACHE_NAME, [(shellRequest, shellResponse)]),
   ("rashtrackr-v2", [])]

/-- Three queued reports. -/
def threeReports : List Report :=
  [⟨1, "token-a", "report 1"⟩, ⟨2, "token-b", "report 2"⟩, ⟨3, "token-c", "report 3"⟩]

/-- A queue storage holding `threeReports`. -/
def threeQueued : Storage := ⟨.fulfilled threeReports, fun _ => .fulfilled ()⟩

/-- A platform on which the second replay of a pass throws and the others are
acknowledged. -/
def secondReplayFailing : Platform :=
  { onlinePlatform with
    replay := fun idx _ =>
      if idx = 1 then .rejected "Failed to fetch" else .fulfilled (synthetic 201 "Created") }

/-- One event of each kind, after activation. -/
def sampleSteps : List (Platform × Storage × HandlerEvent) :=
  [(onlinePlatform, referenceStorage, .install),
   (onlinePlatform, referenceStorage, .fetch apiRequest),
   (offlinePlatform, threeQueued, .sync "background-sync" 300000),
   (onlinePlatform, referenceStorage, .push none),
   (onlinePlatform, referenceStorage, .notificationclick "explore")]

/-- A platform on which nothing fails except that the last manifest entry,
`/logo512.png`, is answered with a 404. -/
def missingIcon : Platform :=
  { onlinePlatform with
    network := fun request =>
      if request.url = "/logo512.png" then .fulfilled (.response (synthetic 404 "Not Found"))
      else .fulfilled (.response jsonResponse) }

/-- A queue storage whose read fails. -/
def brokenQueue : Storage := ⟨.rejected "IndexedDB", fun _ => .rejected "IndexedDB"⟩

/-- The value of `lastSyncTime` after a sequence of sync triggers, each with
its own platform behaviour, storage functions and time. -/
def lastSyncTimeAfter (lastSyncTime : Int) (triggers : List (Platform × Storage × Int)) : Int :=
  triggers.foldl (fun last t => (doBackgroundSync t.1 t.2.1 last t.2.2).lastSyncTime)
    lastSyncTime

/-- The cache storage produced by install alone: a sequence of installs, each
under its own platform behaviour, from a storage without any store. -/
def installedStorage (platforms : List Platform) : CacheStorage :=
  platforms.foldl (fun cs p => (installHandler p cs).storage) []

/-- A platform on which the network answers with something that is not a
`Response`. -/
def garbledNetwork : Platform :=
  { onlinePlatform with network := fun _ => .fulfilled .notAResponse }

/-- A navigation to the application shell with a fragment. -/
def topRequest : Request := { method := "GET", url := "/#top", mode := "navigate" }

end ServiceWorker

/-! ## The api client (`web-app/src/api.js`, lines 39-70) -/

namespace Api

/-- The config of a request, with the mark `_retry` the response interceptor
sets on it. -/
structure Config where
  url : String
  method : String
  retry : Bool
deriving DecidableEq, Repr

/-- A response of the backend. -/
structure ApiResponse where
  status : Nat
  data : String
deriving DecidableEq, Repr

/-- How a request failed: `error.response?.status` and `error.code`. -/
structure Failure where
  status : Option Nat
  code : Option String
deriving DecidableEq, Repr

/-- The error the response interceptor receives: the failure and
`error.config`, the config of the request that failed. -/
structure AxiosError where
  status : Option Nat
  code : Option String
  config : Config
deriving DecidableEq, Repr

/-- What the adapter answers to a request. -/
inductive Answer where
  | response (response : ApiResponse)
  | failure (failure : Failure)
deriving DecidableEq, Repr

/-- What the adapter does with the request sent after `sent` earlier ones. -/
abbrev Transport := Nat → Config → Answer

/-- What the promise of a call of `api` settles to. -/
inductive Reply where
  | resolved (response : ApiResponse)
  | rejected (error : AxiosError)
deriving DecidableEq, Repr

/-- What the rejection handler of the response interceptor returns, and the
time it waited first, in milliseconds. -/
inductive Decision where
  | reissue (config : Config) (waited : Nat)
  | reject (error : AxiosError) (waited : Nat)
deriving DecidableEq, Repr

/-- Lines 44-69, the rejection handler. A 429 waits 2000 ms and, when the
request is not marked, marks it and re-issues it (lines 47-57); otherwise a
`NETWORK_ERROR` or `ECONNABORTED` on a request that is not marked marks it,
waits 1000 ms and re-issues it (lines 60-66); otherwise the error is rejected
(line 68). -/
def onRejected (error : AxiosError) : Decision :=
  let originalRequest := error.config
  let waited := if error.status = some 429 then 2000 else 0
  if error.status = some 429 ∧ originalRequest.retry = false then
    .reissue { originalRequest with retry := true } waited
  else if (error.code = some "NETWORK_ERROR" ∨ error.code = some "ECONNABORTED") ∧
      originalRequest.retry = false then
    .reissue { originalRequest with retry := true } (waited + 1000)
  else .reject error waited

/-- The outcome of a call of `api`: what its promise settles to and the number
of requests sent. -/
structure Outcome where
  result : Reply
  attempts : Nat
deriving DecidableEq, Repr

/-- The call `api(config)`: the request is sent and a failure goes through the
rejection handler, which may call `api` again. `fuel` bounds the depth of
these calls and `sent` counts the requests sent before. -/
def api (transport : Transport) : Nat → Nat → Config → Option Outcome
  | 0, _, _ => none
  | fuel + 1, sent, config =>
    match transport sent config with
    | .response response => some ⟨.resolved response, sent + 1⟩
    | .failure failure =>
      match onRejected ⟨failure.status, failure.code, config⟩ with
      | .reissue marked _ => api transport fuel (sent + 1) marked
      | .reject error _ => some ⟨.rejected error, sent + 1⟩

/-- A transport that always answers 429. -/
def alwaysRateLimited : Transport := fun _ _ => .failure ⟨some 429, none⟩

/-- A transport whose first request times out and whose second succeeds. -/
def timesOutOnce : Transport := fun sent _ =>
  if sent = 0 then .failure ⟨none, some "ECONNABORTED"⟩ else .response ⟨200, "ok"⟩

/-- A request that has not been re-issued. -/
def freshConfig : Config := ⟨"/reports", "get", false⟩

end Api

/-! ## The report form (`web-app/src/ReportForm.jsx`, lines 187-206) -/

namespace ReportForm

/-- A selected file: the fields `handleImageChange` reads. -/
structure File where
  name : String
  size : Nat
  type : String
deriving DecidableEq, Repr

/-- A call of `showToast(message, kind)`. -/
structure Toast where
  message : String
  kind : String
deriving DecidableEq, Repr

/-- What `handleImageChange` reads and writes: the stored image, the value of
the file input and the toasts shown so far. -/
structure FormState where
  image : Option File
  inputValue : String
  toasts : List Toast
deriving DecidableEq, Repr

/-- The test `text.startsWith(start)`. -/
def startsWith (text start : String) : Bool := start.toList.isPrefixOf text.toList

/-- Lines 187-206, with `file` the value of `e.target.files[0]`. -/
def handleImageChange (st : FormState) (file : Option File) : FormState :=
  match file with
  | none => st
  | some file =>
    if file.size > 5 * 1024 * 1024 then
      { st with toasts := st.toasts ++ [⟨"Image size must be less than 5MB", "error"⟩],
                inputValue := "" }
    else if !startsWith file.type "image/" then
      { st with toasts := st.toasts ++ [⟨"Please select a valid image file", "error"⟩],
                inputValue := "" }
    else { st with image := some file }

/-- A form with an image already stored and a file just selected. -/
def formWithImage : FormState :=
  ⟨some ⟨"old.png", 1000, "image/png"⟩, "C:/fakepath/new.png", []⟩

/-- An image of exactly 5 MB. -/
def fiveMegabyteImage : File := ⟨"new.png", 5 * 1024 * 1024, "image/png"⟩

end ReportForm

/-! ## The report list (`web-app/src/components/ReportList.jsx`, lines 33-79) -/

namespace ReportList

/-- A report: the fields the filters read; a field may be missing. -/
structure Report where
  id : String
  description : Option String
  category : Option String
  tags : Option (List String)
  address : Option String
  status : Option String
  priority : Option String
deriving DecidableEq, Repr

/-- The filter state of the component. -/
structure Filters where
  searchTerm : String
  statusFilter : String
  categoryFilter : String
  priorityFilter : String
  sortOrder : String
deriving DecidableEq, Repr

/-- The outcomes of the comparisons `aValue > bValue` and `aValue < bValue`
of lines 72 and 74, for the field `sortBy` selects. -/
structure Comparison where
  greater : Report → Report → Bool
  less : Report → Report → Bool

/-- Whether the characters `part` occur consecutively in `text`. -/
def includesChars : List Char → List Char → Bool
  | [], part => part.isEmpty
  | c :: text, part => part.isPrefixOf (c :: text) || includesChars text part

/-- The test `text.includes(part)`. -/
def includes (text part : String) : Bool := includesChars text.toList part.toList

/-- The test `field?.toLowerCase().includes(searchTerm.toLowerCase())`, which
is falsy when the field is missing; `toLowerCase` is the string method of the
engine. -/
def fieldIncludes (toLowerCase : String → String) (field : Option String)
    (searchTerm : String) : Bool :=
  match field with
  | some text => includes (toLowerCase text) (toLowerCase searchTerm)
  | none => false

/-- Lines 38-43, the callback of the search filter. -/
def matchesSearch (toLowerCase : String → String) (searchTerm : String) (report : Report) :
    Bool :=
  fieldIncludes toLowerCase report.description searchTerm ||
  fieldIncludes toLowerCase report.category searchTerm ||
  (match report.tags with
    | some tags => tags.any (fun tag => includes (toLowerCase tag) (toLowerCase searchTerm))
    | none => false) ||
  fieldIncludes toLowerCase report.address searchTerm

/-- Lines 71-75, the comparator passed to `sort`. -/
def compareFn (c : Comparison) (sortOrder : String) (a b : Report) : Int :=
  if sortOrder = "asc" then (if c.greater a b then 1 else -1)
  else (if c.less a b then 1 else -1)

/-- The order `array.sort(compareFn)` leaves the elements in, as an insertion
sort that puts `a` before `b` when the comparator is negative. -/
def sort (c : Comparison) (sortOrder : String) (items : List Report) : List Report :=
  items.insertionSort (fun a b => compareFn c sortOrder a b < 0)

/-- The arrays in memory, each at its reference: an array is shared by all
who hold its reference, so a change in place is seen by all of them. -/
structure Heap where
  arrays : List (List Report)
deriving DecidableEq, Repr

/-- The elements of the array at a reference. -/
def Heap.read (h : Heap) (ref : Nat) : List Report := h.arrays.getD ref []

/-- A new array: the memory with it and its reference. -/
def Heap.alloc (h : Heap) (items : List Report) : Heap × Nat :=
  (⟨h.arrays ++ [items]⟩, h.arrays.length)

/-- The array at a reference changed in place. -/
def Heap.write (h : Heap) (ref : Nat) (items : List Report) : Heap :=
  ⟨h.arrays.set ref items⟩

/-- One guarded filter, `if (value) { filtered = filtered.filter(test) }`:
when the value is not the empty string, `filtered` becomes a new array. -/
def filterStep (value : String) (test : Report → Bool) (hf : Heap × Nat) : Heap × Nat :=
  if value ≠ "" then hf.1.alloc ((hf.1.read hf.2).filter test) else hf

/-- Lines 33-79, the filter and sort effect, given the memory and the
reference of the prop `reports`. Line 34 copies `reports` into a new array;
each filter runs only when its value is not the empty string (lines 37-59);
`filtered.sort` (lines 62-76) changes the array `filtered` refers to in place;
the reference passed to `setFilteredReports` (line 78) is returned with the
memory. -/
def filterEffect (c : Comparison) (toLowerCase : String → String) (f : Filters) (h : Heap)
    (reports : Nat) : Heap × Nat :=
  let hf := h.alloc (h.read reports)
  let hf := filterStep f.searchTerm (matchesSearch toLowerCase f.searchTerm) hf
  let hf := filterStep f.statusFilter (fun report => report.status = some f.statusFilter) hf
  let hf := filterStep f.categoryFilter
    (fun report => report.category = some f.categoryFilter) hf
  let hf := filterStep f.priorityFilter
    (fun report => report.priority = some f.priorityFilter) hf
  (hf.1.write hf.2 (sort c f.sortOrder (hf.1.read hf.2)), hf.2)

/-- The claim in its own words, the case-insensitive match: the search term
matches a text when, both brought to lower case, the characters of the term
are a run of consecutive characters of the text. -/
def occursIgnoringCase (toLowerCase : String → String) (term text : String) : Bool :=
  decide ((toLowerCase term).toList <:+: (toLowerCase text).toList)

/-- The claim in its own words, the search: the term matches
case-insensitively on the description, the category, any tag or the address. -/
def searchTermMatches (toLowerCase : String → String) (term : String) (report : Report) :
    Bool :=
  report.description.any (occursIgnoringCase toLowerCase term) ||
  report.category.any (occursIgnoringCase toLowerCase term) ||
  (report.tags.getD []).any (occursIgnoringCase toLowerCase term) ||
  report.address.any (occursIgnoringCase toLowerCase term)

/-- The claim in its own words: a report satisfies all active filters, where
an empty filter matches everything, the search term matches as
`searchTermMatches` says and the other filters ask for the same status,
category and priority. -/
def satisfiesFilters (toLowerCase : String → String) (f : Filters) (report : Report) : Bool :=
  (f.searchTerm = "" || searchTermMatches toLowerCase f.searchTerm report) &&
  (f.statusFilter = "" || report.status = some f.statusFilter) &&
  (f.categoryFilter = "" || report.category = some f.categoryFilter) &&
  (f.priorityFilter = "" || report.priority = some f.priorityFilter)

/-- A lower-casing of the ASCII letters, for the examples. -/
def asciiLower (text : String) : String := String.mk (text.toList.map Char.toLower)

/-- Two reports, the first about trash. -/
def twoReports : List Report :=
  [⟨"1", some "Trash pile", none, none, none, some "open", none⟩,
   ⟨"2", some "Pothole", some "road", some ["urgent"], none, some "open", none⟩]

/-- A memory holding `twoReports` at reference 0. -/
def twoReportsHeap : Heap := ⟨[twoReports]⟩

/-- Comparisons by the length of the id. -/
def byId : Comparison :=
  ⟨fun a b => decide (b.id.length < a.id.length), fun a b => decide (a.id.length < b.id.length)⟩

end ReportList

/-! ## Route guarding (`web-app/src/App.jsx`, lines 141-155; `AuthContext.jsx`, lines 14-32) -/

namespace App

/-- The `user` object of the auth context; decoding a token may leave the
fields other than `token` missing. -/
structure User where
  token : String
  email : Option String
  role : Option String
  userId : Option String
deriving DecidableEq, Repr

/-- The fields `jwtDecode` returns that the token effect reads. -/
structure Claims where
  email : Option String
  role : Option String
  userId : Option String
deriving DecidableEq, Repr

/-- `AuthContext.jsx`, lines 14-32: the `user` the token effect sets, given
what `jwtDecode` does with a token (`none` when it throws). -/
def tokenEffect (jwtDecode : String → Option Claims) (token : Option String) : Option User :=
  match token with
  | none => none
  | some token =>
    if token = "" then none
    else
      match jwtDecode token with
      | some decoded => some ⟨token, decoded.email, decoded.role, decoded.userId⟩
      | none => some ⟨token, none, none, none⟩

/-- The elements the routes render. -/
inductive Page where
  | LandingPage
  | AboutProject
  | AnonymousReport
  | AuthForms
  | UserDashboard
  | AdminDashboard
  | UserProfile
deriving DecidableEq, Repr

/-- `App.jsx`, lines 144-153: the element rendered for a path, `none` when no
route matches. -/
def route (user : Option User) (path : String) : Option Page :=
  if path = "/" then some .LandingPage
  else if path = "/about-project" then some .AboutProject
  else if path = "/anonymous-report" then some .AnonymousReport
  else if path = "/login" then some .AuthForms
  else if path = "/register" then some .AuthForms
  else if path = "/dashboard" then
    some (if user.isSome then .UserDashboard else .AuthForms)
  else if path = "/admin" then
    some (if (user.bind (fun u => u.role)) = some "admin" then .AdminDashboard else .AuthForms)
  else if path = "/profile" then
    some (if user.isSome then .UserProfile else .AuthForms)
  else none

/-- A signed-in user whose token could not be decoded. -/
def undecodedUser : User := ⟨"opaque-token", none, none, none⟩

/-- A signed-in administrator. -/
def adminUser : User := ⟨"admin-token", some "admin@example.org", some "admin", some "1"⟩

end App

namespace ServiceWorker

/-! ## Theorems -/

/-- A `GET` request finds the entry a `put` has just written for it. -/
theorem Cache.lookup_put_self (c : Cache) (request : Request) (response : Response)
    (hget : request.method = "GET") :
    Cache.lookup (Cache.put c request response) request = some response := by
  induction c with
  | nil => simp [Cache.lookup, Cache.put, requestMatches, hget]
  | cons e rest ih =>
    by_cases hm : requestMatches e.1 request = true
    · simpa [Cache.lookup, Cache.put, List.filter_cons, hm] using ih
    · simp only [Cache.lookup, Cache.put, List.filter_cons] at ih ⊢
      simpa [hm] using ih

/-- When no store answers a `GET` request and a store called `name` exists,
the request is answered with `response` after `response` is put in `name`. -/
theorem CacheStorage.lookup_putIn_of_miss (cs : CacheStorage) (name : String)
    (request : Request) (response : Response) (hget : request.method = "GET")
    (hmiss : ∀ s ∈ cs, Cache.lookup s.2 request = none) (hname : ∃ s ∈ cs, s.1 = name) :
    (cs.putIn name request response).lookup request = some response := by
  induction cs with
  | nil => simp at hname
  | cons s rest ih =>
    by_cases hs : s.1 = name
    · simp [CacheStorage.lookup, CacheStorage.putIn, hs, Cache.lookup_put_self _ _ _ hget]
    · have hrest : ∃ t ∈ rest, t.1 = name := by
        obtain ⟨t, ht, htn⟩ := hname
        rcases List.mem_cons.1 ht with rfl | ht
        · exact absurd htn hs
        · exact ⟨t, ht, htn⟩
      have h1 := ih (fun t ht => hmiss t (List.mem_cons_of_mem _ ht)) hrest
      have h2 := hmiss s (List.mem_cons_self _ _)
      simp only [CacheStorage.lookup, CacheStorage.putIn] at h1 ⊢
      simp only [beq_iff_eq] at h1
      simp [hs, h2, h1]

/-- Opening a store and putting a response in it for a `GET` request that no
store answered makes the cache storage answer that request with the response. -/
theorem CacheStorage.lookup_open_put (cs : CacheStorage) (name : String)
    (request : Request) (response : Response) (hget : request.method = "GET")
    (hmiss : cs.lookup request = none) :
    ((cs.openStore name).putIn name request response).lookup request = some response := by
  have hall : ∀ s ∈ cs, Cache.lookup s.2 request = none := by
    simpa [CacheStorage.lookup] using hmiss
  apply CacheStorage.lookup_putIn_of_miss _ _ _ _ hget
  · intro s hs
    unfold CacheStorage.openStore at hs
    split at hs
    · exact hall s hs
    · rcases List.mem_append.1 hs with h | h
      · exact hall s h
      · simp at h
        subst h
        simp [Cache.lookup]
  · unfold CacheStorage.openStore
    split
    · rename_i h
      simpa using h
    · exact ⟨(name, []), by simp, rfl⟩


/-- On a cache hit the handler returns the stored response after the lookup
alone. -/
theorem fetchHandler_of_hit (p : Platform) (cs : CacheStorage) (request : Request)
    (cached : Response) (hlookup : p.matchFails request = false)
    (hfound : cs.lookup request = some cached) :
    fetchHandler p cs request = ⟨.fulfilled cached, [.cachesMatch request], none⟩ := by
  simp [fetchHandler, asyncBody, outerTry, hlookup, hfound]

/-- C1. When the cache lookup for an intercepted request finds a stored
response, the fetch handler responds with exactly that response; the lookup is
the only platform call it makes, so the network is never called and no cache
write is started. -/
theorem fetch_cache_hit_serves_stored (p : Platform) (cs : CacheStorage) (request : Request)
    (cached : Response) (hlookup : p.matchFails request = false)
    (hfound : cs.lookup request = some cached) :
    (fetchHandler p cs request).settled = .fulfilled cached ∧
    (fetchHandler p cs request).effects = [.cachesMatch request] ∧
    callsNetwork (fetchHandler p cs request).effects = false ∧
    (fetchHandler p cs request).detached = none := by
  rw [fetchHandler_of_hit p cs request cached hlookup hfound]
  simp [callsNetwork]

/-- C1, at the cached application shell on a platform whose network is down. -/
theorem fetch_cache_hit_serves_stored_witness :
    offlinePlatform.matchFails shellRequest = false ∧
    shellStorage.lookup shellRequest = some shellResponse ∧
    (fetchHandler offlinePlatform shellStorage shellRequest).settled = .fulfilled shellResponse ∧
    callsNetwork (fetchHandler offlinePlatform shellStorage shellRequest).effects = false :=
  have h := fetch_cache_hit_serves_stored offlinePlatform shellStorage shellRequest shellResponse
    rfl (by decide)
  ⟨rfl, by decide, h.1, h.2.2.1⟩

/-- C2. The fetch handler never rejects: for every platform behaviour, every
cache storage and every request, the promise passed to `event.respondWith` is
fulfilled with a response. -/
theorem fetch_never_rejects (p : Platform) (cs : CacheStorage) (request : Request) :
    ∃ response : Response, (fetchHandler p cs request).settled = .fulfilled response := by
  unfold fetchHandler
  cases h : (asyncBody p cs request).settled with
  | fulfilled response => exact ⟨response, by simp only [h]⟩
  | rejected reason => exact ⟨synthetic 500 "Service Worker Error", by simp only [h]⟩

/-- C3, as stated, fails: a navigation that misses the cache, whose network
call throws and for which the lookup of the stored offline page throws gets
the synthetic 500, neither the offline page nor a 503. -/
theorem fetch_offline_lookup_failure_gives_500 :
    offlineLookupFailing.matchFails dashboardRequest = false ∧
    offlineStorage.lookup dashboardRequest = none ∧
    offlineLookupFailing.network dashboardRequest = .rejected "Failed to fetch" ∧
    dashboardRequest.mode = "navigate" ∧
    offlineStorage.lookup offlineKey = some offlinePage ∧
    (fetchHandler offlineLookupFailing offlineStorage dashboardRequest).settled =
      .fulfilled (synthetic 500 "Service Worker Error") ∧
    (synthetic 500 "Service Worker Error").status ≠ 503 ∧
    synthetic 500 "Service Worker Error" ≠ offlinePage := by
  decide

/-- C3, amended. For a request that misses the cache and whose network call
throws: when the mode is `navigate` and the lookup of `/offline.html` does not
itself throw, the handler returns the stored offline page when there is one
and otherwise a synthetic 503; when the mode is anything else it returns a
synthetic 503 and makes no call after the network call, so the offline page is
not looked up. -/
theorem fetch_network_failure_fallback (p : Platform) (cs : CacheStorage) (request : Request)
    (reason : String) (hlookup : p.matchFails request = false)
    (hmiss : cs.lookup request = none) (hnet : p.network request = .rejected reason) :
    (request.mode = "navigate" → p.matchFails offlineKey = false →
      (fetchHandler p cs request).settled =
        .fulfilled ((cs.lookup offlineKey).getD (synthetic 503 "Offline")) ∧
      (synthetic 503 "Offline").status = 503) ∧
    (request.mode ≠ "navigate" →
      (fetchHandler p cs request).settled =
        .fulfilled (synthetic 503 "Service Unavailable") ∧
      (synthetic 503 "Service Unavailable").status = 503 ∧
      (fetchHandler p cs request).effects = [.cachesMatch request, .fetch request]) := by
  constructor
  · intro hmode hoff
    cases ho : cs.lookup offlineKey <;>
      simp [fetchHandler, asyncBody, outerTry, innerTry, innerCatch, hlookup, hmiss, hnet,
        hmode, hoff, ho, synthetic]
  · intro hmode
    simp [fetchHandler, asyncBody, outerTry, innerTry, innerCatch, hlookup, hmiss, hnet,
      hmode, synthetic]

/-- C3, amended, at a failed navigation with the offline page stored. -/
theorem fetch_network_failure_fallback_witness :
    (fetchHandler offlinePlatform offlineStorage dashboardRequest).settled =
      .fulfilled offlinePage :=
  ((fetch_network_failure_fallback offlinePlatform offlineStorage dashboardRequest
    "Failed to fetch" rfl (by decide) rfl).1 (by decide) rfl).1

/-- C4, as stated, fails: a `POST` request that was not cached and whose
network response has status 200 and type `basic` is not stored (the Cache API
rejects the `put`), so serving the identical request again calls the network. -/
theorem fetch_post_second_serve_calls_network :
    onlinePlatform.matchFails postRequest = false ∧
    emptyStorage.lookup postRequest = none ∧
    onlinePlatform.network postRequest = .fulfilled (.response jsonResponse) ∧
    jsonResponse.status = 200 ∧ jsonResponse.type = "basic" ∧
    (fetchHandler onlinePlatform emptyStorage postRequest).settled = .fulfilled jsonResponse ∧
    (storageAfter onlinePlatform emptyStorage postRequest).lookup postRequest = none ∧
    callsNetwork (fetchHandler onlinePlatform (storageAfter onlinePlatform emptyStorage postRequest)
      postRequest).effects = true := by
  decide

/-- C4, amended. For a `GET` request that was not cached and whose network
response has status 200 and type `basic`: once the handler has served it and
the cache write it started without awaiting it has completed (neither
`response.clone()`, `caches.open` nor `cache.put` failed), serving an identical
request again returns the very response served the first time, with the same
status, headers and body, from the cache and without a network call. -/
theorem fetch_roundtrip_through_cache (p p2 : Platform) (cs : CacheStorage) (request : Request)
    (response : Response) (hget : request.method = "GET")
    (hlookup : p.matchFails request = false) (hmiss : cs.lookup request = none)
    (hnet : p.network request = .fulfilled (.response response))
    (hstatus : response.status = 200) (htype : response.type = "basic")
    (hclone : p.cloneFails response = false) (hopen : p.openThrows CACHE_NAME = false)
    (hopened : p.openRejects CACHE_NAME = false) (hput : p.putRejects request response = false)
    (hlookup2 : p2.matchFails request = false) :
    (fetchHandler p cs request).settled = .fulfilled response ∧
    (fetchHandler p2 (storageAfter p cs request) request).settled = .fulfilled response ∧
    (fetchHandler p2 (storageAfter p cs request) request).effects = [.cachesMatch request] ∧
    callsNetwork (fetchHandler p2 (storageAfter p cs request) request).effects = false := by
  have hd : (fetchHandler p cs request).detached = some ⟨CACHE_NAME, request, response⟩ := by
    simp [fetchHandler, asyncBody, outerTry, innerTry, hlookup, hmiss, hnet, hstatus, htype,
      hclone, hopen]
  have hstore : (storageAfter p cs request).lookup request = some response := by
    simp only [storageAfter, hd, settleDetached]
    simp [hopened, hget, hput, CacheStorage.lookup_open_put cs CACHE_NAME request response hget hmiss]
  rw [fetchHandler_of_hit p2 (storageAfter p cs request) request response hlookup2 hstore]
  refine ⟨?_, rfl, rfl, by simp [callsNetwork]⟩
  simp [fetchHandler, asyncBody, outerTry, innerTry, hlookup, hmiss, hnet, hstatus, htype,
    hclone, hopen]

/-- C4, amended, at an API read on a platform where nothing fails. -/
theorem fetch_roundtrip_through_cache_witness :
    (fetchHandler onlinePlatform emptyStorage apiRequest).settled = .fulfilled jsonResponse ∧
    (fetchHandler offlinePlatform (storageAfter onlinePlatform emptyStorage apiRequest) apiRequest).settled
      = .fulfilled jsonResponse ∧
    callsNetwork (fetchHandler offlinePlatform (storageAfter onlinePlatform emptyStorage apiRequest)
      apiRequest).effects = false :=
  have h := fetch_roundtrip_through_cache onlinePlatform offlinePlatform emptyStorage apiRequest
    jsonResponse rfl rfl rfl rfl rfl rfl rfl rfl rfl rfl rfl
  ⟨h.1, h.2.1, h.2.2.2⟩

/-- C5, as stated, fails: a redirected response with status 200 and type
`basic` is written to the cache, which then holds an entry for the request. -/
theorem fetch_redirected_response_is_stored :
    redirectingPlatform.network apiRequest = .fulfilled (.response redirectedResponse) ∧
    redirectedResponse.redirected = true ∧
    emptyStorage.lookup apiRequest = none ∧
    (fetchHandler redirectingPlatform emptyStorage apiRequest).detached =
      some ⟨CACHE_NAME, apiRequest, redirectedResponse⟩ ∧
    storageAfter redirectingPlatform emptyStorage apiRequest =
      [(CACHE_NAME, [(apiRequest, redirectedResponse)])] ∧
    (storageAfter redirectingPlatform emptyStorage apiRequest).lookup apiRequest =
      some redirectedResponse := by
  decide

/-- C5, amended. For every network response whose type is other than `basic`
or whose status is other than 200, serving it starts no cache write: the cache
is not opened, no `put` is left running and the cache storage is unchanged. -/
theorem fetch_uncacheable_not_stored (p : Platform) (cs : CacheStorage) (request : Request)
    (response : Response) (hnet : p.network request = .fulfilled (.response response))
    (hpred : response.type ≠ "basic" ∨ response.status ≠ 200) :
    (fetchHandler p cs request).detached = none ∧
    Effect.cachesOpen CACHE_NAME ∉ (fetchHandler p cs request).effects ∧
    storageAfter p cs request = cs := by
  have hcond : response.status ≠ 200 ∨ response.type ≠ "basic" := hpred.symm
  have hd : (fetchHandler p cs request).detached = none := by
    cases hm : p.matchFails request <;> cases hl : cs.lookup request <;>
      simp [fetchHandler, asyncBody, outerTry, innerTry, hm, hl, hnet, hcond]
  refine ⟨hd, ?_, by simp [storageAfter, hd]⟩
  cases hm : p.matchFails request <;> cases hl : cs.lookup request <;>
    simp [fetchHandler, asyncBody, outerTry, innerTry, hm, hl, hnet, hcond]

/-- C5, amended, at a 404 answer: nothing is written. -/
theorem fetch_uncacheable_not_stored_witness :
    storageAfter
      { onlinePlatform with network := fun _ => .fulfilled (.response (synthetic 404 "Not Found")) }
      shellStorage apiRequest = shellStorage :=
  (fetch_uncacheable_not_stored
    { onlinePlatform with network := fun _ => .fulfilled (.response (synthetic 404 "Not Found")) }
    shellStorage apiRequest (synthetic 404 "Not Found") rfl (Or.inl (by decide))).2.2

/-- C6, as stated, fails: when `response.clone()` throws on a request that is
not a navigation, the handler returns the synthetic 503 of the network-failure
path, not a 500. -/
theorem fetch_clone_failure_gives_503 :
    cloneFailing.matchFails apiRequest = false ∧
    emptyStorage.lookup apiRequest = none ∧
    cloneFailing.network apiRequest = .fulfilled (.response jsonResponse) ∧
    cloneFailing.cloneFails jsonResponse = true ∧
    (fetchHandler cloneFailing emptyStorage apiRequest).settled =
      .fulfilled (synthetic 503 "Service Unavailable") ∧
    (synthetic 503 "Service Unavailable").status ≠ 500 := by
  decide

/-- C6, amended. An exception thrown by the cache lookup, or by the lookup of
the offline page after a failed network call, makes the handler return the
synthetic 500. An exception thrown by `response.clone()` or by the call
`caches.open` is caught by the inner `catch` like a network failure: the
handler returns the synthetic 503 for a request that is not a navigation and,
for a navigation, the stored offline page or the synthetic 503 (the synthetic
500 when that lookup throws too). -/
theorem fetch_exception_responses (p : Platform) (cs : CacheStorage) (request : Request) :
    (p.matchFails request = true →
      (fetchHandler p cs request).settled =
        .fulfilled (synthetic 500 "Service Worker Error")) ∧
    (∀ reason, p.matchFails request = false → cs.lookup request = none →
      p.network request = .rejected reason → request.mode = "navigate" →
      p.matchFails offlineKey = true →
      (fetchHandler p cs request).settled =
        .fulfilled (synthetic 500 "Service Worker Error")) ∧
    (∀ response, p.matchFails request = false → cs.lookup request = none →
      p.network request = .fulfilled (.response response) →
      response.status = 200 → response.type = "basic" →
      p.cloneFails response = true ∨ p.openThrows CACHE_NAME = true →
      (request.mode ≠ "navigate" →
        (fetchHandler p cs request).settled =
          .fulfilled (synthetic 503 "Service Unavailable")) ∧
      (request.mode = "navigate" → p.matchFails offlineKey = false →
        (fetchHandler p cs request).settled =
          .fulfilled ((cs.lookup offlineKey).getD (synthetic 503 "Offline"))) ∧
      (request.mode = "navigate" → p.matchFails offlineKey = true →
        (fetchHandler p cs request).settled =
          .fulfilled (synthetic 500 "Service Worker Error"))) := by
  refine ⟨?_, ?_, ?_⟩
  · intro hm
    simp [fetchHandler, asyncBody, outerTry, hm]
  · intro reason hm hl hnet hmode hoff
    simp [fetchHandler, asyncBody, outerTry, innerTry, innerCatch, hm, hl, hnet, hmode, hoff]
  · intro response hm hl hnet hstatus htype hthrow
    have hrej : ∃ reason, (innerTry p request).settled = .rejected reason := by
      rcases hthrow with hc | ho
      · exact ⟨"clone", by simp [innerTry, hnet, hstatus, htype, hc]⟩
      · cases hc : p.cloneFails response
        · exact ⟨"caches.open", by simp [innerTry, hnet, hstatus, htype, hc, ho]⟩
        · exact ⟨"clone", by simp [innerTry, hnet, hstatus, htype, hc]⟩
    obtain ⟨reason, hrej⟩ := hrej
    refine ⟨?_, ?_, ?_⟩
    · intro hmode
      simp [fetchHandler, asyncBody, outerTry, innerCatch, hm, hl, hrej, hmode]
    · intro hmode hoff
      cases ho : cs.lookup offlineKey <;>
        simp [fetchHandler, asyncBody, outerTry, innerCatch, hm, hl, hrej, hmode, hoff, ho]
    · intro hmode hoff
      simp [fetchHandler, asyncBody, outerTry, innerCatch, hm, hl, hrej, hmode, hoff]

/-- C6, amended, at a failing cache lookup, at a failing lookup of the offline
page and at a throwing `caches.open`. -/
theorem fetch_exception_responses_witness :
    (fetchHandler lookupFailing shellStorage shellRequest).settled =
      .fulfilled (synthetic 500 "Service Worker Error") ∧
    (fetchHandler offlineLookupFailing offlineStorage dashboardRequest).settled =
      .fulfilled (synthetic 500 "Service Worker Error") ∧
    (fetchHandler openThrowing offlineStorage dashboardRequest).settled =
      .fulfilled offlinePage :=
  ⟨(fetch_exception_responses lookupFailing shellStorage shellRequest).1 rfl,
   (fetch_exception_responses offlineLookupFailing offlineStorage dashboardRequest).2.1
      "Failed to fetch" rfl (by decide) rfl rfl rfl,
   ((fetch_exception_responses openThrowing offlineStorage dashboardRequest).2.2
      jsonResponse rfl (by decide) rfl rfl rfl (Or.inr rfl)).2.1 rfl rfl⟩

/-- Deleting the stores of a list of names, none of whose deletions fails,
leaves the stores whose name is not in the list. -/
theorem foldl_deleteStore (p : Platform) (names : List String) (cs : CacheStorage)
    (hok : ∀ n ∈ names, p.deleteRejects n = false) :
    names.foldl
      (fun s cacheName => if p.deleteRejects cacheName then s else s.deleteStore cacheName) cs
      = cs.filter (fun s => decide (s.1 ∉ names)) := by
  induction names generalizing cs with
  | nil => simp
  | cons n rest ih =>
    have hn : p.deleteRejects n = false := hok n (List.mem_cons_self _ _)
    simp only [List.foldl_cons, hn]
    rw [ih _ (fun m hm => hok m (List.mem_cons_of_mem _ hm))]
    simp only [CacheStorage.deleteStore, List.filter_filter, Bool.false_eq_true, if_false]
    apply List.filter_congr
    intro s _
    by_cases h1 : s.1 = n <;> by_cases h2 : s.1 ∈ rest <;> simp [h1, h2]

/-- Among the stores of `cs`, those whose name is not stale are the ones
named `CACHE_NAME`. -/
theorem filter_not_stale (cs : CacheStorage) :
    cs.filter (fun s => decide (s.1 ∉ staleNames cs.keys))
      = cs.filter (fun s => s.1 == CACHE_NAME) := by
  apply List.filter_congr
  intro s hs
  have hmem : s.1 ∈ cs.keys := List.mem_map_of_mem (fun s => s.1) hs
  by_cases h : s.1 = CACHE_NAME <;> simp [staleNames, h, hmem]

/-- C7. Whenever the activate handler completes, the cache stores that remain
are exactly the pre-existing ones named `CACHE_NAME`, with their entries:
every store with another name has been deleted and no store named
`CACHE_NAME` has. The handler completes on every platform on which neither
`caches.keys` nor a `caches.delete` rejects. -/
theorem activate_leaves_exactly_current (p : Platform) (cs : CacheStorage) :
    ((activateHandler p cs).settled = .fulfilled () →
      (activateHandler p cs).storage = cs.filter (fun s => s.1 == CACHE_NAME) ∧
      (activateHandler p cs).storage.keys = cs.keys.filter (fun n => n == CACHE_NAME)) ∧
    (p.keysRejects = false → (∀ n, p.deleteRejects n = false) →
      (activateHandler p cs).settled = .fulfilled ()) := by
  constructor
  · intro hdone
    have hstore : (activateHandler p cs).storage = cs.filter (fun s => s.1 == CACHE_NAME) := by
      unfold activateHandler at hdone ⊢
      cases hk : p.keysRejects
      · simp only [hk, Bool.false_eq_true, if_false] at hdone ⊢
        have hnone : ∀ n ∈ staleNames cs.keys, p.deleteRejects n = false := by
          intro n hn
          by_contra hrej
          have hany : (staleNames cs.keys).any p.deleteRejects = true :=
            List.any_eq_true.2 ⟨n, hn, by simpa using hrej⟩
          simp [hany] at hdone
        rw [foldl_deleteStore p _ cs hnone, filter_not_stale]
      · simp [hk] at hdone
    refine ⟨hstore, ?_⟩
    rw [hstore]
    simp [CacheStorage.keys, List.filter_map, Function.comp_def]
  · intro hk hdel
    have hany : (staleNames cs.keys).any p.deleteRejects = false := by
      simp [hdel]
    simp [activateHandler, hk, hany]

/-- C7, at three stores of which the middle one is current: it alone remains. -/
theorem activate_leaves_exactly_current_witness :
    (activateHandler onlinePlatform threeStores).settled = .fulfilled () ∧
    (activateHandler onlinePlatform threeStores).storage =
      [(CACHE_NAME, [(shellRequest, shellResponse)])] :=
  ⟨by decide,
   ((activate_leaves_exactly_current onlinePlatform threeStores).1 (by decide)).1.trans
     (by decide)⟩

/-- A call of `doBackgroundSync` that is not throttled records `now`. -/
theorem doBackgroundSync_lastSyncTime_of_run (p : Platform) (st : Storage)
    (lastSyncTime now : Int) (hrun : MIN_SYNC_INTERVAL ≤ now - lastSyncTime) :
    (doBackgroundSync p st lastSyncTime now).lastSyncTime = now := by
  have hnot : ¬ (now - lastSyncTime < MIN_SYNC_INTERVAL) := not_lt.2 hrun
  unfold doBackgroundSync
  rw [if_neg hnot]
  cases syncTry p st with
  | mk settled effects => cases settled <;> rfl

/-- The effects of a call of `doBackgroundSync` that is not throttled and
whose queue read returns `batch`. -/
theorem doBackgroundSync_effects_of_run (p : Platform) (st : Storage)
    (lastSyncTime now : Int) (batch : List Report)
    (hrun : MIN_SYNC_INTERVAL ≤ now - lastSyncTime)
    (hqueue : st.getOfflineReports = .fulfilled batch) :
    (doBackgroundSync p st lastSyncTime now).effects =
      .getOfflineReports :: replayLoop p st 0 batch := by
  have hnot : ¬ (now - lastSyncTime < MIN_SYNC_INTERVAL) := not_lt.2 hrun
  unfold doBackgroundSync
  rw [if_neg hnot]
  simp [syncTry, hqueue]

/-- The removal calls of one loop iteration: the id of the item when its
replay was acknowledged, nothing otherwise. -/
theorem removedIds_replayItem (p : Platform) (st : Storage) (idx : Nat) (report : Report) :
    removedIds (replayItem p st idx report) =
      if replayAcknowledged p idx report then [report.id] else [] := by
  unfold replayItem replayAcknowledged
  cases hr : p.replay idx (replayRequest p report) with
  | rejected reason => simp [removedIds]
  | fulfilled response =>
    cases hok : response.ok
    · simp [removedIds, hok]
    · cases hrm : st.removeOfflineReport report.id <;> simp [removedIds, hok]

/-- The removal calls of the loop are those of the acknowledged items. -/
theorem removedIds_replayLoop (p : Platform) (st : Storage) (idx : Nat) (batch : List Report) :
    removedIds (replayLoop p st idx batch) =
      ((batch.enumFrom idx).filter (fun ir => replayAcknowledged p ir.1 ir.2)).map
        (fun ir => ir.2.id) := by
  induction batch generalizing idx with
  | nil => simp [replayLoop, removedIds]
  | cons report rest ih =>
    have happ : removedIds (replayItem p st idx report ++ replayLoop p st (idx + 1) rest) =
        removedIds (replayItem p st idx report) ++ removedIds (replayLoop p st (idx + 1) rest) := by
      simp [removedIds]
    rw [replayLoop, happ, removedIds_replayItem, ih]
    cases hack : replayAcknowledged p idx report <;>
      simp [List.enumFrom_cons, List.filter_cons, hack]

/-- Each loop iteration issues the replay request of its item once. -/
theorem replayed_replayItem (p : Platform) (st : Storage) (idx : Nat) (report : Report) :
    replayed (replayItem p st idx report) = [replayRequest p report] := by
  unfold replayItem
  cases hr : p.replay idx (replayRequest p report) with
  | rejected reason => simp [replayed]
  | fulfilled response =>
    cases hok : response.ok
    · simp [replayed, hok]
    · cases hrm : st.removeOfflineReport report.id <;> simp [replayed, hok]

/-- The loop issues the replay requests of the items, one each, in order. -/
theorem replayed_replayLoop (p : Platform) (st : Storage) (idx : Nat) (batch : List Report) :
    replayed (replayLoop p st idx batch) = batch.map (replayRequest p) := by
  induction batch generalizing idx with
  | nil => simp [replayLoop, replayed]
  | cons report rest ih =>
    have happ : replayed (replayItem p st idx report ++ replayLoop p st (idx + 1) rest) =
        replayed (replayItem p st idx report) ++ replayed (replayLoop p st (idx + 1) rest) := by
      simp [replayed]
    rw [replayLoop, happ, replayed_replayItem, ih]
    simp

/-- C8. When a call of `doBackgroundSync` at time `t1` executes a pass and a
second call is made at time `t2` with `0 ≤ t2 - t1 < 300000`, the second call
is a no-op: it makes no call at all (the queue is not read, no request is
issued), leaves `lastSyncTime` at `t1` and returns normally. -/
theorem sync_second_trigger_is_noop (p1 p2 : Platform) (st1 st2 : Storage)
    (lastSyncTime t1 t2 : Int) (hpass : MIN_SYNC_INTERVAL ≤ t1 - lastSyncTime)
    (hgap : 0 ≤ t2 - t1 ∧ t2 - t1 < 300000) :
    Effect.getOfflineReports ∈ (doBackgroundSync p1 st1 lastSyncTime t1).effects ∧
    doBackgroundSync p2 st2 (doBackgroundSync p1 st1 lastSyncTime t1).lastSyncTime t2 =
      ⟨t1, .fulfilled (), []⟩ := by
  constructor
  · have hnot : ¬ (t1 - lastSyncTime < MIN_SYNC_INTERVAL) := not_lt.2 hpass
    unfold doBackgroundSync
    rw [if_neg hnot]
    unfold syncTry
    cases st1.getOfflineReports <;> simp
  · rw [doBackgroundSync_lastSyncTime_of_run p1 st1 lastSyncTime t1 hpass]
    have hlt : t2 - t1 < MIN_SYNC_INTERVAL := by
      have h := hgap.2
      simpa [MIN_SYNC_INTERVAL] using h
    unfold doBackgroundSync
    rw [if_pos hlt]

/-- C8, at a first pass at 300000 ms and a second trigger 299999 ms later. -/
theorem sync_second_trigger_is_noop_witness :
    (doBackgroundSync onlinePlatform threeQueued
      (doBackgroundSync onlinePlatform threeQueued 0 300000).lastSyncTime 599999).effects = [] :=
  congrArg SyncRun.effects
    (sync_second_trigger_is_noop onlinePlatform onlinePlatform threeQueued threeQueued
      0 300000 599999 (by decide) (by decide)).2

/-- In a list without duplicates a value occurs at one position only. -/
theorem index_unique_of_nodup (l : List Nat) (hn : l.Nodup) (i j a : Nat)
    (hi : l[i]? = some a) (hj : l[j]? = some a) : i = j := by
  have hne := List.nodup_iff_getElem?_ne_getElem?.1 hn
  have hil : i < l.length := (List.getElem?_eq_some.1 hi).1
  have hjl : j < l.length := (List.getElem?_eq_some.1 hj).1
  rcases Nat.lt_trichotomy i j with h | h | h
  · exact absurd (hi.trans hj.symm) (hne i j h hjl)
  · exact h
  · exact absurd (hj.trans hi.symm) (hne j i h hil)

/-- C9. In a pass of `doBackgroundSync` over the batch `getOfflineReports`
returned, `removeOfflineReport` is called with the ids of exactly the items
whose replay returned an ok response, in queue order; for an item whose replay
threw or returned a status that is not ok there is no such call. With ids that
identify the items, an item has been removed if and only if its replay
returned an ok response. -/
theorem sync_removes_exactly_acknowledged (p : Platform) (st : Storage)
    (lastSyncTime now : Int) (batch : List Report)
    (hrun : MIN_SYNC_INTERVAL ≤ now - lastSyncTime)
    (hqueue : st.getOfflineReports = .fulfilled batch) :
    removedIds (doBackgroundSync p st lastSyncTime now).effects =
      ((batch.enumFrom 0).filter (fun ir => replayAcknowledged p ir.1 ir.2)).map
        (fun ir => ir.2.id) ∧
    ((batch.map (fun r => r.id)).Nodup → ∀ i report, batch[i]? = some report →
      (report.id ∈ removedIds (doBackgroundSync p st lastSyncTime now).effects ↔
        replayAcknowledged p i report = true)) := by
  have hlist : removedIds (doBackgroundSync p st lastSyncTime now).effects =
      ((batch.enumFrom 0).filter (fun ir => replayAcknowledged p ir.1 ir.2)).map
        (fun ir => ir.2.id) := by
    rw [doBackgroundSync_effects_of_run p st lastSyncTime now batch hrun hqueue]
    have hcons : removedIds (Effect.getOfflineReports :: replayLoop p st 0 batch) =
        removedIds (replayLoop p st 0 batch) := by
      simp [removedIds]
    rw [hcons, removedIds_replayLoop]
  refine ⟨hlist, ?_⟩
  intro hnodup i report hi
  rw [hlist]
  constructor
  · intro hmem
    obtain ⟨⟨j, r⟩, hjr, hid⟩ := List.mem_map.1 hmem
    obtain ⟨hin, hack⟩ := List.mem_filter.1 hjr
    have hj : batch[j]? = some r := List.mk_mem_enum_iff_getElem?.1 hin
    have hij : i = j := by
      apply index_unique_of_nodup _ hnodup i j report.id
      · simp [List.getElem?_map, hi]
      · simp only [List.getElem?_map, hj, Option.map_some']
        exact congrArg some hid
    subst hij
    have hr : r = report := Option.some.inj (hj.symm.trans hi)
    subst hr
    exact hack
  · intro hack
    exact List.mem_map.2 ⟨(i, report),
      List.mem_filter.2 ⟨List.mk_mem_enum_iff_getElem?.2 hi, hack⟩, rfl⟩

/-- C9, at a batch of three whose second replay fails: items 1 and 3 are
removed and item 2 is not. -/
theorem sync_removes_exactly_acknowledged_witness :
    removedIds (doBackgroundSync secondReplayFailing threeQueued 0 300000).effects = [1, 3] ∧
    (2 ∈ removedIds (doBackgroundSync secondReplayFailing threeQueued 0 300000).effects ↔
      replayAcknowledged secondReplayFailing 1 ⟨2, "token-b", "report 2"⟩ = true) :=
  have h := sync_removes_exactly_acknowledged secondReplayFailing threeQueued 0 300000
    threeReports (by decide) rfl
  ⟨h.1.trans (by decide), h.2 (by decide) 1 ⟨2, "token-b", "report 2"⟩ rfl⟩

/-- C10. In a pass of `doBackgroundSync` every queued item is replayed exactly
once, in queue order, whatever the outcome of each replay: the requests issued
are the replay requests of the items of the batch, one each, in order. -/
theorem sync_replays_each_item_once (p : Platform) (st : Storage)
    (lastSyncTime now : Int) (batch : List Report)
    (hrun : MIN_SYNC_INTERVAL ≤ now - lastSyncTime)
    (hqueue : st.getOfflineReports = .fulfilled batch) :
    replayed (doBackgroundSync p st lastSyncTime now).effects = batch.map (replayRequest p) := by
  rw [doBackgroundSync_effects_of_run p st lastSyncTime now batch hrun hqueue]
  have hcons : replayed (Effect.getOfflineReports :: replayLoop p st 0 batch) =
      replayed (replayLoop p st 0 batch) := by
    simp [replayed]
  rw [hcons, replayed_replayLoop]

/-- C10, at a batch of three whose second replay fails: all three are replayed. -/
theorem sync_replays_each_item_once_witness :
    (replayed (doBackgroundSync secondReplayFailing threeQueued 0 300000).effects).map
      (fun r => r.body) = ["report 1", "report 2", "report 3"] :=
  (congrArg (List.map (fun r => r.body))
    (sync_replays_each_item_once secondReplayFailing threeQueued 0 300000 threeReports
      (by decide) rfl)).trans (by decide)

/-- The inner `try` starts with the network call. -/
theorem innerTry_callsNetwork (p : Platform) (request : Request) :
    callsNetwork (innerTry p request).effects = true := by
  unfold innerTry
  split
  · simp [callsNetwork]
  · split_ifs <;> simp [callsNetwork]
  · simp [callsNetwork]

/-- The write the inner `try` leaves running, if any, is the write of the
network response, of status 200 and type `basic`, to `CACHE_NAME` under the
request. -/
theorem innerTry_detached (p : Platform) (request : Request) (d : Detached)
    (h : (innerTry p request).detached = some d) :
    d.name = CACHE_NAME ∧ d.request = request ∧
    p.network request = .fulfilled (.response d.response) ∧
    d.response.status = 200 ∧ d.response.type = "basic" := by
  unfold innerTry at h
  split at h
  · simp at h
  · rename_i response hnet
    split_ifs at h with h1 h2 h3
    all_goals first
      | (simp at h; done)
      | (simp only [Option.some.injEq] at h
         subst h
         have h1' : response.status = 200 ∧ response.type = "basic" := by
           simpa [not_or] using h1
         exact ⟨rfl, rfl, hnet, h1'.1, h1'.2⟩)
  · simp at h

/-- The handler leaves running what the inner `try` left running, or nothing. -/
theorem fetchHandler_detached (p : Platform) (cs : CacheStorage) (request : Request) :
    (fetchHandler p cs request).detached = none ∨
    (fetchHandler p cs request).detached = (innerTry p request).detached := by
  have houter : (outerTry p cs request).detached = none ∨
      (outerTry p cs request).detached = (innerTry p request).detached := by
    unfold outerTry
    split_ifs
    · exact Or.inl rfl
    · split
      · exact Or.inl rfl
      · cases ht : (innerTry p request).settled <;> simp [ht]
  have hasync : (asyncBody p cs request).detached = (outerTry p cs request).detached := by
    unfold asyncBody
    cases ht : (outerTry p cs request).settled <;> simp [ht]
  have hfetch : (fetchHandler p cs request).detached = (asyncBody p cs request).detached := by
    unfold fetchHandler
    cases ht : (asyncBody p cs request).settled <;> simp [ht]
  rw [hfetch, hasync]
  exact houter

/-- On a miss the handler calls the network. -/
theorem fetchHandler_callsNetwork_of_miss (p : Platform) (cs : CacheStorage)
    (request : Request) (hlookup : p.matchFails request = false)
    (hmiss : cs.lookup request = none) :
    callsNetwork (fetchHandler p cs request).effects = true := by
  have hinner := innerTry_callsNetwork p request
  have happ : ∀ l : List Effect,
      callsNetwork (Effect.cachesMatch request :: ((innerTry p request).effects ++ l)) = true := by
    intro l
    simp only [callsNetwork, List.any_cons, List.any_append] at hinner ⊢
    simp [hinner]
  have hcons : callsNetwork (Effect.cachesMatch request :: (innerTry p request).effects) = true := by
    simpa using happ []
  cases ht : (innerTry p request).settled with
  | fulfilled response =>
    simpa [fetchHandler, asyncBody, outerTry, hlookup, hmiss, ht] using hcons
  | rejected reason =>
    cases hc : (innerCatch p cs request).settled <;>
      simpa [fetchHandler, asyncBody, outerTry, hlookup, hmiss, ht, hc] using
        happ (innerCatch p cs request).effects

/-- C11, as stated, fails: a request whose only stored entry lives in the
superseded store `rashtrackr-v0` is a hit; the handler answers with that entry
and the network is not attempted. -/
theorem fetch_hit_in_superseded_store :
    threeStores.holds CACHE_NAME apiRequest = false ∧
    threeStores.holds "rashtrackr-v2" apiRequest = false ∧
    threeStores.holds "rashtrackr-v0" apiRequest = true ∧
    (fetchHandler offlinePlatform threeStores apiRequest).settled = .fulfilled jsonResponse ∧
    (fetchHandler offlinePlatform threeStores apiRequest).effects = [.cachesMatch apiRequest] ∧
    callsNetwork (fetchHandler offlinePlatform threeStores apiRequest).effects = false := by
  decide

/-- C11, amended. The lookup of the fetch handler, `caches.match`, consults
every cache store: the network is attempted exactly when no store, whatever
its name, holds an entry for the request, and otherwise the handler answers
with the entry of the first store that holds one. -/
theorem fetch_lookup_consults_every_store (p : Platform) (cs : CacheStorage)
    (request : Request) (hlookup : p.matchFails request = false) :
    (callsNetwork (fetchHandler p cs request).effects = true ↔
      ∀ s ∈ cs, Cache.lookup s.2 request = none) ∧
    (∀ cached, cs.lookup request = some cached →
      (fetchHandler p cs request).settled = .fulfilled cached) := by
  constructor
  · cases hl : cs.lookup request with
    | none =>
      have hall : ∀ s ∈ cs, Cache.lookup s.2 request = none := by
        simpa [CacheStorage.lookup] using hl
      exact ⟨fun _ => hall, fun _ => fetchHandler_callsNetwork_of_miss p cs request hlookup hl⟩
    | some cached =>
      rw [fetchHandler_of_hit p cs request cached hlookup hl]
      constructor
      · intro h
        simp [callsNetwork] at h
      · intro hall
        have hnone : cs.lookup request = none := by
          simpa [CacheStorage.lookup] using hall
        rw [hnone] at hl
        exact absurd hl (by simp)
  · intro cached hl
    rw [fetchHandler_of_hit p cs request cached hlookup hl]

/-- C11, amended, at an entry held by a superseded store only. -/
theorem fetch_lookup_consults_every_store_witness :
    (fetchHandler offlinePlatform threeStores apiRequest).settled = .fulfilled jsonResponse :=
  (fetch_lookup_consults_every_store offlinePlatform threeStores apiRequest rfl).2
    jsonResponse (by decide)

/-- After `caches.open(name)` a store called `name` exists. -/
theorem CacheStorage.exists_named_openStore (cs : CacheStorage) (name : String) :
    ∃ s ∈ cs.openStore name, s.1 = name := by
  unfold CacheStorage.openStore
  split
  · rename_i h
    simpa using h
  · exact ⟨(name, []), by simp, rfl⟩

/-- A `put` in the store `name` keeps the stores called `name`. -/
theorem CacheStorage.exists_named_putIn (cs : CacheStorage) (name : String)
    (request : Request) (response : Response) (h : ∃ s ∈ cs, s.1 = name) :
    ∃ s ∈ cs.putIn name request response, s.1 = name := by
  obtain ⟨s, hs, hn⟩ := h
  refine ⟨(s.1, Cache.put s.2 request response), ?_, hn⟩
  unfold CacheStorage.putIn
  exact List.mem_map.2 ⟨s, hs, by simp [hn]⟩

/-- After a `put` for a `GET` request in the store `name`, every store called
`name` answers the request with the response put. -/
theorem CacheStorage.lookup_named_putIn (cs : CacheStorage) (name : String)
    (request : Request) (response : Response) (hget : request.method = "GET") :
    ∀ s ∈ cs.putIn name request response, s.1 = name →
      Cache.lookup s.2 request = some response := by
  intro s hs hn
  unfold CacheStorage.putIn at hs
  obtain ⟨t, _, ht⟩ := List.mem_map.1 hs
  by_cases htn : t.1 = name
  · simp only [htn, beq_self_eq_true, if_true] at ht
    subst ht
    exact Cache.lookup_put_self _ _ _ hget
  · have hne : (t.1 == name) = false := by simpa using htn
    simp only [hne, Bool.false_eq_true, if_false] at ht
    subst ht
    exact absurd hn htn

/-- Creating a store adds no entry. -/
theorem CacheStorage.holds_openStore (cs : CacheStorage) (name other : String)
    (query : Request) :
    (cs.openStore name).holds other query = cs.holds other query := by
  unfold CacheStorage.openStore
  split
  · rfl
  · simp [CacheStorage.holds, Cache.lookup]

/-- C12, as stated, fails: on a cache miss for a `POST` request whose network
response has status 200 and type `basic` the handler returns that response,
but no clone of it is written: the Cache API rejects the `put`, and the store
`CACHE_NAME`, created by `caches.open`, stays empty. -/
theorem fetch_post_response_not_written :
    onlinePlatform.matchFails postRequest = false ∧
    emptyStorage.lookup postRequest = none ∧
    onlinePlatform.network postRequest = .fulfilled (.response jsonResponse) ∧
    jsonResponse.status = 200 ∧ jsonResponse.type = "basic" ∧
    (fetchHandler onlinePlatform emptyStorage postRequest).settled = .fulfilled jsonResponse ∧
    storageAfter onlinePlatform emptyStorage postRequest = [(CACHE_NAME, [])] := by
  decide

/-- C12, amended. On a cache miss with a network response, when neither
`response.clone()` nor the call `caches.open` throws, the handler starts the
write of a copy of the response to the store `CACHE_NAME` under the request if
and only if the status is 200 and the type is `basic`, and starts no write
otherwise; in both cases it returns the network response itself. The write,
which is not awaited, adds the entry to the store `CACHE_NAME` when the
request method is `GET` and neither `caches.open` nor `cache.put` rejects. -/
theorem fetch_miss_write_iff_cacheable (p : Platform) (cs : CacheStorage) (request : Request)
    (response : Response) (hlookup : p.matchFails request = false)
    (hmiss : cs.lookup request = none)
    (hnet : p.network request = .fulfilled (.response response))
    (hclone : p.cloneFails response = false) (hopen : p.openThrows CACHE_NAME = false) :
    ((fetchHandler p cs request).detached = some ⟨CACHE_NAME, request, response⟩ ↔
      response.status = 200 ∧ response.type = "basic") ∧
    ((fetchHandler p cs request).detached = none ↔
      ¬ (response.status = 200 ∧ response.type = "basic")) ∧
    (fetchHandler p cs request).settled = .fulfilled response ∧
    (response.status = 200 → response.type = "basic" → request.method = "GET" →
      p.openRejects CACHE_NAME = false → p.putRejects request response = false →
      (∃ s ∈ storageAfter p cs request, s.1 = CACHE_NAME) ∧
      ∀ s ∈ storageAfter p cs request, s.1 = CACHE_NAME →
        Cache.lookup s.2 request = some response) := by
  by_cases hc : response.status = 200 ∧ response.type = "basic"
  · have hd : (fetchHandler p cs request).detached = some ⟨CACHE_NAME, request, response⟩ := by
      simp [fetchHandler, asyncBody, outerTry, innerTry, hlookup, hmiss, hnet, hc.1, hc.2,
        hclone, hopen]
    refine ⟨⟨fun _ => hc, fun _ => hd⟩, ⟨fun h => ?_, fun h => absurd hc h⟩, ?_, ?_⟩
    · rw [hd] at h
      exact absurd h (by simp)
    · simp [fetchHandler, asyncBody, outerTry, innerTry, hlookup, hmiss, hnet, hc.1, hc.2,
        hclone, hopen]
    · intro _ _ hget hopened hput
      have hstore : storageAfter p cs request =
          (cs.openStore CACHE_NAME).putIn CACHE_NAME request response := by
        simp [storageAfter, hd, settleDetached, hopened, hget, hput]
      rw [hstore]
      exact ⟨CacheStorage.exists_named_putIn _ _ _ _
          (CacheStorage.exists_named_openStore cs CACHE_NAME),
        CacheStorage.lookup_named_putIn _ _ _ _ hget⟩
  · have hcond : response.status ≠ 200 ∨ response.type ≠ "basic" := by
      by_cases hs : response.status = 200
      · exact Or.inr (fun ht => hc ⟨hs, ht⟩)
      · exact Or.inl hs
    have hd : (fetchHandler p cs request).detached = none := by
      simp [fetchHandler, asyncBody, outerTry, innerTry, hlookup, hmiss, hnet, hcond]
    refine ⟨⟨fun h => ?_, fun h => absurd h hc⟩, ⟨fun _ => hc, fun _ => hd⟩, ?_, ?_⟩
    · rw [hd] at h
      exact absurd h (by simp)
    · simp [fetchHandler, asyncBody, outerTry, innerTry, hlookup, hmiss, hnet, hcond]
    · intro hs ht
      exact absurd ⟨hs, ht⟩ hc

/-- C12, amended, at an API read on a platform where nothing fails. -/
theorem fetch_miss_write_iff_cacheable_witness :
    (fetchHandler onlinePlatform emptyStorage apiRequest).detached =
      some ⟨CACHE_NAME, apiRequest, jsonResponse⟩ ∧
    (fetchHandler onlinePlatform emptyStorage apiRequest).settled = .fulfilled jsonResponse :=
  have h := fetch_miss_write_iff_cacheable onlinePlatform emptyStorage apiRequest jsonResponse
    rfl rfl rfl rfl rfl
  ⟨h.1.2 ⟨rfl, rfl⟩, h.2.2.1⟩

/-- C13, as stated, fails: for a `POST` request whose network response has
status 200 and type `basic` the handler clones the response, opens the cache
and leaves a `put` running: a cache write is attempted. -/
theorem fetch_post_write_attempted :
    postRequest.method ≠ "GET" ∧
    (fetchHandler onlinePlatform shellStorage postRequest).effects =
      [.cachesMatch postRequest, .fetch postRequest, .clone jsonResponse,
        .cachesOpen CACHE_NAME] ∧
    (fetchHandler onlinePlatform shellStorage postRequest).detached =
      some ⟨CACHE_NAME, postRequest, jsonResponse⟩ := by
  decide

/-- C13, amended. The handler adds cache entries only for `GET` requests: for
a request whose method is not `GET`, whatever the network response, the cache
storage afterwards is the one before, up to the creation of an empty store
`CACHE_NAME`, and no store holds an entry it did not hold before. -/
theorem fetch_non_get_adds_no_entry (p : Platform) (cs : CacheStorage) (request : Request)
    (hmethod : request.method ≠ "GET") :
    (storageAfter p cs request = cs ∨ storageAfter p cs request = cs.openStore CACHE_NAME) ∧
    ∀ name query, (storageAfter p cs request).holds name query = cs.holds name query := by
  have hcases : storageAfter p cs request = cs ∨
      storageAfter p cs request = cs.openStore CACHE_NAME := by
    unfold storageAfter
    cases hd : (fetchHandler p cs request).detached with
    | none => exact Or.inl rfl
    | some d =>
      have hinner : (innerTry p request).detached = some d := by
        rcases fetchHandler_detached p cs request with h | h
        · rw [hd] at h
          exact absurd h (by simp)
        · rw [← h, hd]
      obtain ⟨hname, hreq, _⟩ := innerTry_detached p request d hinner
      have hm : d.request.method ≠ "GET" := by rw [hreq]; exact hmethod
      simp only [settleDetached, hname]
      split_ifs with h1 h2
      · exact Or.inl rfl
      · exact Or.inr rfl
      · exact absurd (Or.inl hm) h2
  refine ⟨hcases, ?_⟩
  intro name query
  rcases hcases with h | h
  · rw [h]
  · rw [h, CacheStorage.holds_openStore]

/-- C13, amended, at a `POST` on a platform where nothing fails. -/
theorem fetch_non_get_adds_no_entry_witness :
    storageAfter onlinePlatform shellStorage postRequest = shellStorage ∨
    storageAfter onlinePlatform shellStorage postRequest = shellStorage.openStore CACHE_NAME :=
  (fetch_non_get_adds_no_entry onlinePlatform shellStorage postRequest (by decide)).1

/-- A `put` changes no store name. -/
theorem CacheStorage.keys_putIn (cs : CacheStorage) (name : String) (request : Request)
    (response : Response) : (cs.putIn name request response).keys = cs.keys := by
  unfold CacheStorage.putIn CacheStorage.keys
  rw [List.map_map]
  apply List.map_congr_left
  intro s _
  by_cases h : s.1 = name <;> simp [h]

/-- Writing a batch of entries changes no store name. -/
theorem CacheStorage.keys_putAllIn (name : String) (entries : List (Request × Response))
    (cs : CacheStorage) : (cs.putAllIn name entries).keys = cs.keys := by
  induction entries generalizing cs with
  | nil => rfl
  | cons e rest ih =>
    unfold CacheStorage.putAllIn at ih ⊢
    rw [List.foldl_cons, ih, CacheStorage.keys_putIn]

/-- The store names after `caches.open(name)`. -/
theorem CacheStorage.keys_openStore (cs : CacheStorage) (name : String) :
    (cs.openStore name).keys = if name ∈ cs.keys then cs.keys else cs.keys ++ [name] := by
  unfold CacheStorage.openStore CacheStorage.keys
  by_cases h : cs.any (fun s => s.1 == name) = true
  · have hmem : name ∈ List.map (fun s => s.1) cs := by
      obtain ⟨s, hs, hn⟩ := List.any_eq_true.1 h
      exact List.mem_map.2 ⟨s, hs, by simpa using hn⟩
    rw [if_pos h, if_pos hmem]
  · have hmem : name ∉ List.map (fun s => s.1) cs := by
      intro hm
      obtain ⟨s, hs, hn⟩ := List.mem_map.1 hm
      exact h (List.any_eq_true.2 ⟨s, hs, by simpa using hn⟩)
    rw [if_neg h, if_neg hmem]
    simp

/-- The cache storage a served request leaves: the one before, possibly with
the store `CACHE_NAME` created, possibly with one entry put in it. -/
theorem storageAfter_cases (p : Platform) (cs : CacheStorage) (request : Request) :
    storageAfter p cs request = cs ∨
    storageAfter p cs request = cs.openStore CACHE_NAME ∨
    ∃ response, storageAfter p cs request =
      (cs.openStore CACHE_NAME).putIn CACHE_NAME request response := by
  unfold storageAfter
  cases hd : (fetchHandler p cs request).detached with
  | none => exact Or.inl rfl
  | some d =>
    have hinner : (innerTry p request).detached = some d := by
      rcases fetchHandler_detached p cs request with h | h
      · rw [hd] at h
        exact absurd h (by simp)
      · rw [← h, hd]
    obtain ⟨hname, hreq, _⟩ := innerTry_detached p request d hinner
    simp only [settleDetached, hname, hreq]
    split_ifs
    · exact Or.inl rfl
    · exact Or.inr (Or.inl rfl)
    · exact Or.inr (Or.inr ⟨d.response, rfl⟩)

/-- The cache storage the install handler leaves: the one before, possibly
with the store `CACHE_NAME` created, possibly with a batch of entries put in
it. -/
theorem installHandler_storage_cases (p : Platform) (cs : CacheStorage) :
    (installHandler p cs).storage = cs ∨
    (installHandler p cs).storage = cs.openStore CACHE_NAME ∨
    ∃ entries, (installHandler p cs).storage =
      (cs.openStore CACHE_NAME).putAllIn CACHE_NAME entries := by
  unfold installHandler
  split_ifs
  · exact Or.inl rfl
  · cases hadd : addAllEntries p urlsToCache with
    | none => exact Or.inr (Or.inl rfl)
    | some entries => exact Or.inr (Or.inr ⟨entries, rfl⟩)

/-- The stores the activate handler leaves when it completes. -/
theorem activateHandler_storage_of_fulfilled (p : Platform) (cs : CacheStorage)
    (hdone : (activateHandler p cs).settled = .fulfilled ()) :
    (activateHandler p cs).storage = cs.filter (fun s => s.1 == CACHE_NAME) := by
  unfold activateHandler at hdone ⊢
  cases hk : p.keysRejects
  · simp only [hk, Bool.false_eq_true, if_false] at hdone ⊢
    have hnone : ∀ n ∈ staleNames cs.keys, p.deleteRejects n = false := by
      intro n hn
      by_contra hrej
      have hany : (staleNames cs.keys).any p.deleteRejects = true :=
        List.any_eq_true.2 ⟨n, hn, by simpa using hrej⟩
      simp [hany] at hdone
    rw [foldl_deleteStore p _ cs hnone, filter_not_stale]
  · simp [hk] at hdone

/-- In a list without duplicates at most one element equals a given one. -/
theorem filter_eq_of_nodup (l : List String) (a : String) (hn : l.Nodup) :
    l.filter (fun n => n == a) = [] ∨ l.filter (fun n => n == a) = [a] := by
  induction l with
  | nil => exact Or.inl rfl
  | cons b rest ih =>
    have hrest := ih (List.nodup_cons.1 hn).2
    by_cases hb : b = a
    · subst hb
      have hnot : b ∉ rest := (List.nodup_cons.1 hn).1
      have hempty : rest.filter (fun n => n == b) = [] := by
        apply List.filter_eq_nil_iff.2
        intro n hmem heq
        have : n = b := by simpa using heq
        exact hnot (this ▸ hmem)
      right
      simp [List.filter_cons, hempty]
    · have hne : (b == a) = false := by simpa using hb
      simpa [List.filter_cons, hne] using hrest

/-- Opening `CACHE_NAME` keeps a storage with at most the store `CACHE_NAME`
one. -/
theorem keys_openStore_current (cs : CacheStorage)
    (h : cs.keys = [] ∨ cs.keys = [CACHE_NAME]) :
    (cs.openStore CACHE_NAME).keys = [CACHE_NAME] := by
  rw [CacheStorage.keys_openStore]
  rcases h with h | h <;> simp [h]

/-- Handling an event other than `activate` keeps a storage with at most the
store `CACHE_NAME` one. -/
theorem handle_keeps_only_current (p : Platform) (st : Storage) (w : WorkerState)
    (e : HandlerEvent) (h : w.caches.keys = [] ∨ w.caches.keys = [CACHE_NAME]) :
    (handle p st w e).caches.keys = [] ∨ (handle p st w e).caches.keys = [CACHE_NAME] := by
  cases e with
  | install =>
    simp only [handle]
    rcases installHandler_storage_cases p w.caches with hs | hs | ⟨entries, hs⟩
    · rw [hs]; exact h
    · rw [hs]; exact Or.inr (keys_openStore_current _ h)
    · rw [hs, CacheStorage.keys_putAllIn]; exact Or.inr (keys_openStore_current _ h)
  | fetch request =>
    simp only [handle]
    rcases storageAfter_cases p w.caches request with hs | hs | ⟨response, hs⟩
    · rw [hs]; exact h
    · rw [hs]; exact Or.inr (keys_openStore_current _ h)
    · rw [hs, CacheStorage.keys_putIn]; exact Or.inr (keys_openStore_current _ h)
  | sync tag now => exact h
  | push data => exact h
  | notificationclick action => exact h

/-- The inner `try` opens no store other than `CACHE_NAME`. -/
theorem innerTry_opens_only_current (p : Platform) (request : Request) (name : String)
    (h : Effect.cachesOpen name ∈ (innerTry p request).effects) : name = CACHE_NAME := by
  unfold innerTry at h
  split at h
  · simp at h
  · split_ifs at h <;> simp at h <;> exact h
  · simp at h

/-- The inner `catch` opens no store. -/
theorem innerCatch_opens_nothing (p : Platform) (cs : CacheStorage) (request : Request)
    (name : String) : Effect.cachesOpen name ∉ (innerCatch p cs request).effects := by
  unfold innerCatch
  split_ifs
  · simp
  · cases cs.lookup offlineKey <;> simp
  · simp

/-- The fetch handler opens no store other than `CACHE_NAME`. -/
theorem fetchHandler_opens_only_current (p : Platform) (cs : CacheStorage)
    (request : Request) (name : String)
    (h : Effect.cachesOpen name ∈ (fetchHandler p cs request).effects) : name = CACHE_NAME := by
  have hasync : (asyncBody p cs request).effects = (outerTry p cs request).effects := by
    unfold asyncBody
    cases ht : (outerTry p cs request).settled <;> simp [ht]
  have hfetch : (fetchHandler p cs request).effects = (asyncBody p cs request).effects := by
    unfold fetchHandler
    cases ht : (asyncBody p cs request).settled <;> simp [ht]
  rw [hfetch, hasync] at h
  unfold outerTry at h
  split_ifs at h
  · simp at h
  · cases hl : cs.lookup request with
    | some cached => simp [hl] at h
    | none =>
      cases ht : (innerTry p request).settled with
      | fulfilled response =>
        simp only [hl, ht, List.mem_cons] at h
        rcases h with h | h
        · exact absurd h (by simp)
        · exact innerTry_opens_only_current p request name h
      | rejected reason =>
        simp only [hl, ht, List.mem_cons, List.mem_append] at h
        rcases h with h | h | h
        · exact absurd h (by simp)
        · exact innerTry_opens_only_current p request name h
        · exact absurd h (innerCatch_opens_nothing p cs request name)

/-- The install handler opens no store other than `CACHE_NAME`. -/
theorem installHandler_opens_only_current (p : Platform) (cs : CacheStorage) (name : String)
    (h : Effect.cachesOpen name ∈ (installHandler p cs).effects) : name = CACHE_NAME := by
  unfold installHandler at h
  split_ifs at h
  · simpa using h
  · cases hadd : addAllEntries p urlsToCache <;> simpa [hadd] using h

/-- C14. Once activation has completed on a cache storage whose store names
are distinct, the storage after any sequence of install, fetch, sync, push and
notificationclick events, under any platform behaviour, has no store or the
single store `CACHE_NAME`. The install and fetch handlers, the only ones that
open a store, open no store under another name. -/
theorem only_current_store_after_activation (p : Platform) (cs : CacheStorage)
    (lastSyncTime : Int) (steps : List (Platform × Storage × HandlerEvent))
    (hnames : cs.keys.Nodup) (hdone : (activateHandler p cs).settled = .fulfilled ()) :
    ((handleAll ⟨(activateHandler p cs).storage, lastSyncTime⟩ steps).caches.keys = [] ∨
      (handleAll ⟨(activateHandler p cs).storage, lastSyncTime⟩ steps).caches.keys =
        [CACHE_NAME]) ∧
    (∀ (q : Platform) (stores : CacheStorage) (request : Request) (name : String),
      Effect.cachesOpen name ∈ (fetchHandler q stores request).effects → name = CACHE_NAME) ∧
    (∀ (q : Platform) (stores : CacheStorage) (name : String),
      Effect.cachesOpen name ∈ (installHandler q stores).effects → name = CACHE_NAME) := by
  have hstart : (activateHandler p cs).storage.keys = [] ∨
      (activateHandler p cs).storage.keys = [CACHE_NAME] := by
    rw [activateHandler_storage_of_fulfilled p cs hdone]
    have hkeys : CacheStorage.keys (cs.filter (fun s => s.1 == CACHE_NAME)) =
        cs.keys.filter (fun n => n == CACHE_NAME) := by
      simp [CacheStorage.keys, List.filter_map, Function.comp_def]
    rw [hkeys]
    exact filter_eq_of_nodup _ _ hnames
  have hall : ∀ (steps : List (Platform × Storage × HandlerEvent)) (w : WorkerState),
      (w.caches.keys = [] ∨ w.caches.keys = [CACHE_NAME]) →
      ((handleAll w steps).caches.keys = [] ∨ (handleAll w steps).caches.keys = [CACHE_NAME]) := by
    intro steps
    induction steps with
    | nil => intro w hw; exact hw
    | cons step rest ih =>
      intro w hw
      unfold handleAll at ih ⊢
      rw [List.foldl_cons]
      exact ih _ (handle_keeps_only_current step.1 step.2.1 w step.2.2 hw)
  exact ⟨hall steps _ hstart, fetchHandler_opens_only_current, installHandler_opens_only_current⟩

/-- C14, at three stores, activation and one event of each kind: the store
`CACHE_NAME` alone exists afterwards. -/
theorem only_current_store_after_activation_witness :
    threeStores.keys.Nodup ∧
    (activateHandler onlinePlatform threeStores).settled = .fulfilled () ∧
    (handleAll ⟨(activateHandler onlinePlatform threeStores).storage, 0⟩
      sampleSteps).caches.keys = [CACHE_NAME] :=
  ⟨by decide, by decide,
    ((only_current_store_after_activation onlinePlatform threeStores 0 sampleSteps
      (by decide) (by decide)).1.resolve_left (by decide))⟩

/-- A `put` keeps every key answered before answered. -/
theorem Cache.lookup_put_isSome (c : Cache) (request : Request) (response : Response)
    (query : Request) (h : (Cache.lookup c query).isSome = true) :
    (Cache.lookup (Cache.put c request response) query).isSome = true := by
  unfold Cache.lookup at h ⊢
  rw [Option.isSome_map'] at h ⊢
  rw [List.find?_isSome] at h ⊢
  obtain ⟨e, he, hmatch⟩ := h
  by_cases hq : requestMatches e.1 request = true
  · refine ⟨(request, response), by simp [Cache.put], ?_⟩
    simp only [requestMatches, Bool.and_eq_true, beq_iff_eq] at hq hmatch ⊢
    exact ⟨hmatch.1, hq.2.symm.trans hmatch.2⟩
  · refine ⟨e, ?_, hmatch⟩
    simp only [Cache.put, List.mem_append, List.mem_filter]
    exact Or.inl ⟨he, by simpa using hq⟩

/-- A `put` in some store keeps every entry held. -/
theorem CacheStorage.holds_putIn (cs : CacheStorage) (name : String) (request : Request)
    (response : Response) (other : String) (query : Request)
    (h : cs.holds other query = true) :
    (cs.putIn name request response).holds other query = true := by
  unfold CacheStorage.holds at h ⊢
  obtain ⟨s, hs, hheld⟩ := List.any_eq_true.1 h
  simp only [Bool.and_eq_true, beq_iff_eq] at hheld
  by_cases hn : s.1 = name
  · refine List.any_eq_true.2 ⟨(s.1, Cache.put s.2 request response), ?_, ?_⟩
    · unfold CacheStorage.putIn
      exact List.mem_map.2 ⟨s, hs, by simp [hn]⟩
    · simp only [Bool.and_eq_true, beq_iff_eq]
      exact ⟨hheld.1, Cache.lookup_put_isSome _ _ _ _ hheld.2⟩
  · refine List.any_eq_true.2 ⟨s, ?_, ?_⟩
    · unfold CacheStorage.putIn
      exact List.mem_map.2 ⟨s, hs, by simp [hn]⟩
    · simp only [Bool.and_eq_true, beq_iff_eq]
      exact hheld

/-- Writing a batch of entries keeps every entry held. -/
theorem CacheStorage.holds_putAllIn (name : String) (entries : List (Request × Response))
    (other : String) (query : Request) (cs : CacheStorage)
    (h : cs.holds other query = true) :
    (cs.putAllIn name entries).holds other query = true := by
  induction entries generalizing cs with
  | nil => exact h
  | cons e rest ih =>
    unfold CacheStorage.putAllIn at ih ⊢
    rw [List.foldl_cons]
    exact ih _ (CacheStorage.holds_putIn cs name e.1 e.2 other query h)

/-- Opening a store keeps every store name. -/
theorem CacheStorage.mem_keys_openStore (cs : CacheStorage) (name other : String)
    (h : other ∈ cs.keys) : other ∈ (cs.openStore name).keys := by
  rw [CacheStorage.keys_openStore]
  split_ifs
  · exact h
  · exact List.mem_append_left _ h

/-- C15. Handling an install, fetch or sync event (or a push or
notification click) removes nothing from the cache storage: every entry a
store held before the step, in the store `CACHE_NAME` as in any other, is
still held by that store after it, and every store that existed still exists.
No store is deleted outside the activate handler. -/
theorem handlers_keep_entries_and_stores (p : Platform) (st : Storage) (w : WorkerState)
    (e : HandlerEvent) :
    (∀ query, w.caches.holds CACHE_NAME query = true →
      (handle p st w e).caches.holds CACHE_NAME query = true) ∧
    (∀ name query, w.caches.holds name query = true →
      (handle p st w e).caches.holds name query = true) ∧
    (∀ name, name ∈ w.caches.keys → name ∈ (handle p st w e).caches.keys) := by
  have hholds : ∀ name query, w.caches.holds name query = true →
      (handle p st w e).caches.holds name query = true := by
    intro name query h
    cases e with
    | install =>
      simp only [handle]
      rcases installHandler_storage_cases p w.caches with hs | hs | ⟨entries, hs⟩
      · rw [hs]; exact h
      · rw [hs, CacheStorage.holds_openStore]; exact h
      · rw [hs]
        apply CacheStorage.holds_putAllIn
        rw [CacheStorage.holds_openStore]; exact h
    | fetch request =>
      simp only [handle]
      rcases storageAfter_cases p w.caches request with hs | hs | ⟨response, hs⟩
      · rw [hs]; exact h
      · rw [hs, CacheStorage.holds_openStore]; exact h
      · rw [hs]
        apply CacheStorage.holds_putIn
        rw [CacheStorage.holds_openStore]; exact h
    | sync tag now => exact h
    | push data => exact h
    | notificationclick action => exact h
  refine ⟨fun query => hholds CACHE_NAME query, hholds, ?_⟩
  intro name h
  cases e with
  | install =>
    simp only [handle]
    rcases installHandler_storage_cases p w.caches with hs | hs | ⟨entries, hs⟩
    · rw [hs]; exact h
    · rw [hs]; exact CacheStorage.mem_keys_openStore _ _ _ h
    · rw [hs, CacheStorage.keys_putAllIn]; exact CacheStorage.mem_keys_openStore _ _ _ h
  | fetch request =>
    simp only [handle]
    rcases storageAfter_cases p w.caches request with hs | hs | ⟨response, hs⟩
    · rw [hs]; exact h
    · rw [hs]; exact CacheStorage.mem_keys_openStore _ _ _ h
    · rw [hs, CacheStorage.keys_putIn]; exact CacheStorage.mem_keys_openStore _ _ _ h
  | sync tag now => exact h
  | push data => exact h
  | notificationclick action => exact h

/-- C15, at a fetch that writes a new entry next to a stored one. -/
theorem handlers_keep_entries_and_stores_witness :
    shellStorage.holds CACHE_NAME shellRequest = true ∧
    (handle onlinePlatform referenceStorage ⟨shellStorage, 0⟩
      (.fetch apiRequest)).caches.holds CACHE_NAME shellRequest = true :=
  ⟨by decide,
    (handlers_keep_entries_and_stores onlinePlatform referenceStorage ⟨shellStorage, 0⟩
      (.fetch apiRequest)).1 shellRequest (by decide)⟩

/-- Filtering by a weaker test does not change the first element passing a
stronger one. -/
theorem find?_filter_of_imp {α : Type} (test keep : α → Bool) (l : List α)
    (h : ∀ a, test a = true → keep a = true) : (l.filter keep).find? test = l.find? test := by
  induction l with
  | nil => rfl
  | cons a rest ih =>
    by_cases hk : keep a = true
    · rw [List.filter_cons_of_pos hk, List.find?_cons, List.find?_cons, ih]
    · have ht : test a = false := by
        cases hta : test a
        · rfl
        · exact absurd (h a hta) hk
      rw [List.filter_cons_of_neg hk, List.find?_cons, ht, ih]

/-- A `put` under another URL does not change the answer to a query. -/
theorem Cache.lookup_put_of_url_ne (c : Cache) (request : Request) (response : Response)
    (query : Request) (hne : withoutFragment request.url ≠ withoutFragment query.url) :
    Cache.lookup (Cache.put c request response) query = Cache.lookup c query := by
  unfold Cache.lookup Cache.put
  have hlast : requestMatches request query = false := by
    simp [requestMatches, hne]
  have hkeep : ∀ e : Request × Response, requestMatches e.1 query = true →
      (!requestMatches e.1 request) = true := by
    intro e he
    simp only [requestMatches, Bool.and_eq_true, beq_iff_eq] at he
    simp only [requestMatches, Bool.not_eq_true', Bool.and_eq_false_iff, beq_eq_false_iff_ne]
    right
    intro hurl
    exact hne (hurl.symm.trans he.2)
  rw [List.find?_append,
    find?_filter_of_imp (fun e => requestMatches e.1 query)
      (fun e => !requestMatches e.1 request) c hkeep]
  simp [hlast]

/-- Entries put under other URLs do not change the answer to a query. -/
theorem Cache.lookup_foldl_put_of_url_ne (entries : List (Request × Response))
    (query : Request)
    (hne : ∀ e ∈ entries, withoutFragment e.1.url ≠ withoutFragment query.url) (c : Cache) :
    Cache.lookup (entries.foldl (fun c e => Cache.put c e.1 e.2) c) query =
      Cache.lookup c query := by
  induction entries generalizing c with
  | nil => rfl
  | cons e rest ih =>
    rw [List.foldl_cons, ih (fun x hx => hne x (List.mem_cons_of_mem _ hx)),
      Cache.lookup_put_of_url_ne _ _ _ _ (hne e (List.mem_cons_self _ _))]

/-- After a batch of `GET` entries with distinct URLs has been put, each of
them is answered with its own response. -/
theorem Cache.lookup_foldl_put_of_mem (entries : List (Request × Response))
    (hget : ∀ e ∈ entries, e.1.method = "GET")
    (hnodup : (entries.map (fun e => withoutFragment e.1.url)).Nodup) (c : Cache) :
    ∀ e ∈ entries,
      Cache.lookup (entries.foldl (fun c e => Cache.put c e.1 e.2) c) e.1 = some e.2 := by
  induction entries generalizing c with
  | nil => intro e he; simp at he
  | cons a rest ih =>
    intro e he
    rw [List.map_cons, List.nodup_cons] at hnodup
    rw [List.foldl_cons]
    rcases List.mem_cons.1 he with rfl | hrest
    · have hne : ∀ x ∈ rest, withoutFragment x.1.url ≠ withoutFragment e.1.url := by
        intro x hx heq
        exact hnodup.1 (List.mem_map.2 ⟨x, hx, heq⟩)
      rw [Cache.lookup_foldl_put_of_url_ne rest e.1 hne]
      exact Cache.lookup_put_self _ _ _ (hget e (List.mem_cons_self _ _))
    · exact ih (fun x hx => hget x (List.mem_cons_of_mem _ hx)) hnodup.2 _ e hrest

/-- Writing a batch to the store `name` writes it to every store called
`name` and leaves the others alone. -/
theorem CacheStorage.putAllIn_eq_map (name : String) (entries : List (Request × Response))
    (cs : CacheStorage) :
    cs.putAllIn name entries = cs.map (fun s =>
      if s.1 == name then (s.1, entries.foldl (fun c e => Cache.put c e.1 e.2) s.2) else s) := by
  induction entries generalizing cs with
  | nil =>
    simp only [CacheStorage.putAllIn, List.foldl_nil]
    conv_lhs => rw [← List.map_id cs]
    apply List.map_congr_left
    intro s _
    split_ifs <;> rfl
  | cons e rest ih =>
    unfold CacheStorage.putAllIn at ih ⊢
    rw [List.foldl_cons, ih, CacheStorage.putIn, List.map_map]
    apply List.map_congr_left
    intro s _
    by_cases h : s.1 = name <;> simp [h]

/-- When every URL is fetched, `cache.addAll` is about to write the fetched
responses. -/
theorem addAllEntries_of_all (p : Platform) (fetched : String → Response) (urls : List String)
    (h : ∀ u ∈ urls, addAllEntry p u = some (manifestRequest u, fetched u)) :
    addAllEntries p urls = some (urls.map (fun u => (manifestRequest u, fetched u))) := by
  induction urls with
  | nil => rfl
  | cons u rest ih =>
    rw [addAllEntries, h u (List.mem_cons_self _ _),
      ih (fun v hv => h v (List.mem_cons_of_mem _ hv))]
    rfl

/-- When one URL fails, `cache.addAll` writes nothing. -/
theorem addAllEntries_of_failure (p : Platform) (urls : List String)
    (h : ∃ u ∈ urls, addAllEntry p u = none) : addAllEntries p urls = none := by
  induction urls with
  | nil =>
    obtain ⟨u, hu, _⟩ := h
    simp at hu
  | cons v rest ih =>
    obtain ⟨u, hu, hfail⟩ := h
    rw [addAllEntries]
    rcases List.mem_cons.1 hu with rfl | hrest
    · rw [hfail]
    · rw [ih ⟨u, hrest, hfail⟩]
      cases addAllEntry p v <;> rfl

/-- C16. The install handler populates the store `CACHE_NAME` from the
seven-entry manifest `urlsToCache` all-or-nothing. When the cache is opened
and every manifest entry succeeds (its URL is fetched with an ok response that
the cache accepts), installation succeeds and the store `CACHE_NAME` answers
each of the seven URLs with the response fetched for it. When a single entry
fails, installation fails and no entry is added: the storage is the one
before, up to the creation of an empty store `CACHE_NAME`. -/
theorem install_all_or_nothing (p : Platform) (cs : CacheStorage) :
    urlsToCache.length = 7 ∧
    (∀ fetched : String → Response,
      p.openThrows CACHE_NAME = false → p.openRejects CACHE_NAME = false →
      (∀ u ∈ urlsToCache,
        p.network (manifestRequest u) = .fulfilled (.response (fetched u)) ∧
        (fetched u).ok = true ∧ (fetched u).status ≠ 206 ∧
        p.putRejects (manifestRequest u) (fetched u) = false) →
      (installHandler p cs).settled = .fulfilled () ∧
      (∃ s ∈ (installHandler p cs).storage, s.1 = CACHE_NAME) ∧
      ∀ s ∈ (installHandler p cs).storage, s.1 = CACHE_NAME →
        ∀ u ∈ urlsToCache, Cache.lookup s.2 (manifestRequest u) = some (fetched u)) ∧
    ((∃ u ∈ urlsToCache, addAllEntry p u = none) →
      (∃ reason, (installHandler p cs).settled = .rejected reason) ∧
      ((installHandler p cs).storage = cs ∨
        (installHandler p cs).storage = cs.openStore CACHE_NAME) ∧
      ∀ name query, (installHandler p cs).storage.holds name query = cs.holds name query) := by
  refine ⟨rfl, ?_, ?_⟩
  · intro fetched hopen hopened hall
    have hentry : ∀ u ∈ urlsToCache,
        addAllEntry p u = some (manifestRequest u, fetched u) := by
      intro u hu
      obtain ⟨hnet, hok, hpartial, hput⟩ := hall u hu
      simp [addAllEntry, hnet, hok, hpartial, hput]
    have hadd := addAllEntries_of_all p fetched urlsToCache hentry
    have hrun : installHandler p cs =
        ⟨.fulfilled (),
          (cs.openStore CACHE_NAME).putAllIn CACHE_NAME
            (urlsToCache.map (fun u => (manifestRequest u, fetched u))),
          [.cachesOpen CACHE_NAME, .cacheAddAll CACHE_NAME urlsToCache]⟩ := by
      unfold installHandler
      simp only [hopen, hopened, Bool.or_self, Bool.false_eq_true, if_false, hadd]
    rw [hrun]
    refine ⟨rfl, ?_, ?_⟩
    · simp only [CacheStorage.putAllIn_eq_map]
      obtain ⟨t, ht, hn⟩ := CacheStorage.exists_named_openStore cs CACHE_NAME
      exact ⟨_, List.mem_map.2 ⟨t, ht, rfl⟩, by simp [hn]⟩
    · intro s hs hname u hu
      simp only [CacheStorage.putAllIn_eq_map] at hs
      obtain ⟨t, _, rfl⟩ := List.mem_map.1 hs
      by_cases htn : t.1 = CACHE_NAME
      · simp only [htn, beq_self_eq_true, if_true]
        have hmem : (manifestRequest u, fetched u) ∈
            urlsToCache.map (fun u => (manifestRequest u, fetched u)) :=
          List.mem_map.2 ⟨u, hu, rfl⟩
        refine Cache.lookup_foldl_put_of_mem _ ?_ ?_ t.2 _ hmem
        · intro e he
          obtain ⟨v, _, rfl⟩ := List.mem_map.1 he
          rfl
        · have hurls : (urlsToCache.map (fun u => (manifestRequest u, fetched u))).map
              (fun e => withoutFragment e.1.url) = urlsToCache.map withoutFragment := by
            rw [List.map_map]
            rfl
          rw [hurls]
          decide
      · have hne : (t.1 == CACHE_NAME) = false := by simpa using htn
        simp only [hne, Bool.false_eq_true, if_false] at hname
        exact absurd hname htn
  · intro hfail
    have hadd := addAllEntries_of_failure p urlsToCache hfail
    have hcases : (∃ reason, (installHandler p cs).settled = .rejected reason) ∧
        ((installHandler p cs).storage = cs ∨
          (installHandler p cs).storage = cs.openStore CACHE_NAME) := by
      unfold installHandler
      split_ifs
      · exact ⟨⟨_, rfl⟩, Or.inl rfl⟩
      · simp [hadd]
    refine ⟨hcases.1, hcases.2, ?_⟩
    intro name query
    rcases hcases.2 with h | h
    · rw [h]
    · rw [h, CacheStorage.holds_openStore]

/-- C16, at an install where everything is fetched and at one where the last
manifest entry is missing. -/
theorem install_all_or_nothing_witness :
    ((installHandler onlinePlatform emptyStorage).settled = .fulfilled () ∧
      ∀ s ∈ (installHandler onlinePlatform emptyStorage).storage, s.1 = CACHE_NAME →
        ∀ u ∈ urlsToCache, Cache.lookup s.2 (manifestRequest u) = some jsonResponse) ∧
    ((∃ reason, (installHandler missingIcon emptyStorage).settled = .rejected reason) ∧
      ∀ name query, (installHandler missingIcon emptyStorage).storage.holds name query =
        emptyStorage.holds name query) :=
  have hall := (install_all_or_nothing onlinePlatform emptyStorage).2.1 (fun _ => jsonResponse)
    rfl rfl (fun _ _ => ⟨rfl, rfl, (show jsonResponse.status ≠ 206 by decide), rfl⟩)
  have hfail := (install_all_or_nothing missingIcon emptyStorage).2.2
    ⟨"/logo512.png", by decide, by decide⟩
  ⟨⟨hall.1, hall.2.2⟩, ⟨hfail.1, hfail.2.2⟩⟩

/-- C17. A trigger at time `now` with `now - lastSyncTime ≥ 300000`, exactly
five minutes included, records `now` as `lastSyncTime`, reads the queue and
replays every item of the batch read; the call is suppressed (nothing is
called, `lastSyncTime` is kept) exactly when `now - lastSyncTime < 300000`. -/
theorem sync_runs_from_five_minutes (p : Platform) (st : Storage) (lastSyncTime now : Int) :
    (300000 ≤ now - lastSyncTime →
      (doBackgroundSync p st lastSyncTime now).lastSyncTime = now ∧
      Effect.getOfflineReports ∈ (doBackgroundSync p st lastSyncTime now).effects ∧
      ∀ batch, st.getOfflineReports = .fulfilled batch →
        replayed (doBackgroundSync p st lastSyncTime now).effects =
          batch.map (replayRequest p)) ∧
    (doBackgroundSync p st lastSyncTime now = ⟨lastSyncTime, .fulfilled (), []⟩ ↔
      now - lastSyncTime < 300000) := by
  have hmin : MIN_SYNC_INTERVAL = 300000 := by decide
  have hread : 300000 ≤ now - lastSyncTime →
      Effect.getOfflineReports ∈ (doBackgroundSync p st lastSyncTime now).effects := by
    intro hrun
    have hnot : ¬ (now - lastSyncTime < MIN_SYNC_INTERVAL) := by
      rw [hmin]; exact not_lt.2 hrun
    unfold doBackgroundSync
    rw [if_neg hnot]
    unfold syncTry
    cases st.getOfflineReports <;> simp
  constructor
  · intro hrun
    have hrun' : MIN_SYNC_INTERVAL ≤ now - lastSyncTime := by rw [hmin]; exact hrun
    refine ⟨doBackgroundSync_lastSyncTime_of_run p st lastSyncTime now hrun', hread hrun, ?_⟩
    intro batch hqueue
    rw [doBackgroundSync_effects_of_run p st lastSyncTime now batch hrun' hqueue]
    have hcons : replayed (Effect.getOfflineReports :: replayLoop p st 0 batch) =
        replayed (replayLoop p st 0 batch) := by
      simp [replayed]
    rw [hcons, replayed_replayLoop]
  · constructor
    · intro hskip
      by_contra hnot
      have hmem := hread (not_lt.1 hnot)
      rw [hskip] at hmem
      simp at hmem
    · intro hlt
      have hlt' : now - lastSyncTime < MIN_SYNC_INTERVAL := by rw [hmin]; exact hlt
      unfold doBackgroundSync
      rw [if_pos hlt']

/-- C17, at a trigger exactly five minutes after the last pass. -/
theorem sync_runs_from_five_minutes_witness :
    (doBackgroundSync secondReplayFailing threeQueued 0 300000).lastSyncTime = 300000 ∧
    (replayed (doBackgroundSync secondReplayFailing threeQueued 0 300000).effects).length = 3 :=
  have h := (sync_runs_from_five_minutes secondReplayFailing threeQueued 0 300000).1
    (by decide)
  ⟨h.1, (congrArg List.length (h.2.2 threeReports rfl)).trans (by decide)⟩

/-- C18. `doBackgroundSync` never rejects: whatever the queue read, the
network and the queue removal do, the promise it returns is fulfilled. When
the queue read fails, outside the per-item `try`, the error is logged and
nothing else is called. -/
theorem sync_never_rejects (p : Platform) (st : Storage) (lastSyncTime now : Int) :
    (doBackgroundSync p st lastSyncTime now).settled = .fulfilled () ∧
    (∀ reason, MIN_SYNC_INTERVAL ≤ now - lastSyncTime →
      st.getOfflineReports = .rejected reason →
      (doBackgroundSync p st lastSyncTime now).effects =
        [.getOfflineReports, .consoleError "Background sync failed:"]) := by
  constructor
  · unfold doBackgroundSync
    split_ifs
    · rfl
    · unfold syncTry
      cases st.getOfflineReports <;> rfl
  · intro reason hrun hqueue
    have hnot : ¬ (now - lastSyncTime < MIN_SYNC_INTERVAL) := not_lt.2 hrun
    unfold doBackgroundSync
    rw [if_neg hnot]
    simp [syncTry, hqueue]

/-- C18, at a queue read that fails. -/
theorem sync_never_rejects_witness :
    (doBackgroundSync offlinePlatform brokenQueue 0 300000).settled = .fulfilled () ∧
    (doBackgroundSync offlinePlatform brokenQueue 0 300000).effects =
      [.getOfflineReports, .consoleError "Background sync failed:"] :=
  have h := sync_never_rejects offlinePlatform brokenQueue 0 300000
  ⟨h.1, h.2 "IndexedDB" (by decide) rfl⟩

/-- C19. Every request issued in a pass is the replay of an item of the
batch: a `POST` to `/api/reports` whose headers are the JSON content type and
`Authorization: Bearer` followed by the token of the item, and whose body is
the JSON serialisation of the data of the item. An item is acknowledged, that
is `removeOfflineReport` is called with its id, exactly when its replay
resolved to a response whose `ok` flag is true. -/
theorem sync_replay_request_and_acknowledgement (p : Platform) (st : Storage)
    (lastSyncTime now : Int) (batch : List Report)
    (hrun : MIN_SYNC_INTERVAL ≤ now - lastSyncTime)
    (hqueue : st.getOfflineReports = .fulfilled batch) :
    (∀ request ∈ replayed (doBackgroundSync p st lastSyncTime now).effects,
      ∃ report ∈ batch, request = replayRequest p report ∧
        request.method = "POST" ∧ request.url = "/api/reports" ∧
        request.headers = [("Content-Type", "application/json"),
          ("Authorization", "Bearer " ++ report.token)] ∧
        request.body = p.stringify report.data) ∧
    (∀ idx report, report.id ∈ removedIds (replayItem p st idx report) ↔
      ∃ response, p.replay idx (replayRequest p report) = .fulfilled response ∧
        response.ok = true) := by
  constructor
  · intro request hreq
    rw [doBackgroundSync_effects_of_run p st lastSyncTime now batch hrun hqueue] at hreq
    have hcons : replayed (Effect.getOfflineReports :: replayLoop p st 0 batch) =
        replayed (replayLoop p st 0 batch) := by
      simp [replayed]
    rw [hcons, replayed_replayLoop] at hreq
    obtain ⟨report, hmem, rfl⟩ := List.mem_map.1 hreq
    exact ⟨report, hmem, rfl, rfl, rfl, rfl, rfl⟩
  · intro idx report
    rw [removedIds_replayItem]
    unfold replayAcknowledged
    cases hr : p.replay idx (replayRequest p report) with
    | rejected reason => simp
    | fulfilled response =>
      cases hok : response.ok <;> simp [hok]

/-- C19, at the first item of a batch of three. -/
theorem sync_replay_request_and_acknowledgement_witness :
    (∀ request ∈ replayed (doBackgroundSync secondReplayFailing threeQueued 0 300000).effects,
      ∃ report ∈ threeReports, request = replayRequest secondReplayFailing report ∧
        request.method = "POST" ∧ request.url = "/api/reports" ∧
        request.headers = [("Content-Type", "application/json"),
          ("Authorization", "Bearer " ++ report.token)] ∧
        request.body = secondReplayFailing.stringify report.data) ∧
    replayRequest secondReplayFailing ⟨1, "token-a", "report 1"⟩ =
      ⟨"/api/reports", "POST",
        [("Content-Type", "application/json"), ("Authorization", "Bearer token-a")],
        "report 1"⟩ :=
  ⟨(sync_replay_request_and_acknowledgement secondReplayFailing threeQueued 0 300000
      threeReports (by decide) rfl).1, by decide⟩

/-- C20. The sync handler calls `doBackgroundSync` if and only if the tag of
the event is `background-sync`; for any other tag it calls nothing and
`lastSyncTime` is unchanged. -/
theorem sync_handler_filters_on_tag (p : Platform) (st : Storage) (lastSyncTime now : Int)
    (tag : String) :
    ((syncHandler p st lastSyncTime now tag).waitUntil =
        some (doBackgroundSync p st lastSyncTime now) ↔ tag = "background-sync") ∧
    (tag = "background-sync" →
      (syncHandler p st lastSyncTime now tag).lastSyncTime =
        (doBackgroundSync p st lastSyncTime now).lastSyncTime) ∧
    (tag ≠ "background-sync" →
      (syncHandler p st lastSyncTime now tag).waitUntil = none ∧
      (syncHandler p st lastSyncTime now tag).lastSyncTime = lastSyncTime) := by
  by_cases htag : tag = "background-sync"
  · simp [syncHandler, htag]
  · simp [syncHandler, htag]

/-- C20, at the tag `background-sync` and at another tag. -/
theorem sync_handler_filters_on_tag_witness :
    (syncHandler onlinePlatform threeQueued 0 300000 "background-sync").lastSyncTime = 300000 ∧
    (syncHandler onlinePlatform threeQueued 0 300000 "periodic-sync").waitUntil = none ∧
    (syncHandler onlinePlatform threeQueued 0 300000 "periodic-sync").lastSyncTime = 0 :=
  have h := (sync_handler_filters_on_tag onlinePlatform threeQueued 0 300000
    "periodic-sync").2.2 (by decide)
  ⟨((sync_handler_filters_on_tag onlinePlatform threeQueued 0 300000
      "background-sync").2.1 rfl).trans (by decide), h.1, h.2⟩

/-- C21, as stated, fails: a click on the `close` action, or on the
notification itself (empty action), closes the notification and opens no
window. -/
theorem notificationclick_close_opens_nothing :
    notificationclickHandler "close" = [.notificationClose] ∧
    notificationclickHandler "" = [.notificationClose] ∧
    Effect.openWindow "/dashboard" ∉ notificationclickHandler "close" := by
  decide

/-- C21, amended. For every notification click the handler closes the
notification; it opens a window if and only if the action of the event is
`explore`, and the window it opens is the route `/dashboard`. -/
theorem notificationclick_closes_and_opens_on_explore (action : String) :
    Effect.notificationClose ∈ notificationclickHandler action ∧
    (Effect.openWindow "/dashboard" ∈ notificationclickHandler action ↔ action = "explore") ∧
    (∀ url, Effect.openWindow url ∈ notificationclickHandler action →
      url = "/dashboard" ∧ action = "explore") := by
  by_cases h : action = "explore"
  · simp [notificationclickHandler, h]
  · simp [notificationclickHandler, h]

/-- C21, amended, at the `explore` action. -/
theorem notificationclick_closes_and_opens_on_explore_witness :
    notificationclickHandler "explore" = [.notificationClose, .openWindow "/dashboard"] ∧
    ("/dashboard" = "/dashboard" ∧ "explore" = "explore") :=
  ⟨by decide,
    (notificationclick_closes_and_opens_on_explore "explore").2.2 "/dashboard" (by decide)⟩

/-- C22. With the storage functions of the source, `getOfflineReports`
resolves to the empty list, and for every trigger, throttled or not,
`doBackgroundSync` issues no network request and never calls
`removeOfflineReport`. -/
theorem reference_storage_sync_is_idle (p : Platform) (lastSyncTime now : Int) :
    referenceStorage.getOfflineReports = .fulfilled [] ∧
    replayed (doBackgroundSync p referenceStorage lastSyncTime now).effects = [] ∧
    removedIds (doBackgroundSync p referenceStorage lastSyncTime now).effects = [] ∧
    callsNetwork (doBackgroundSync p referenceStorage lastSyncTime now).effects = false := by
  refine ⟨rfl, ?_⟩
  by_cases h : now - lastSyncTime < MIN_SYNC_INTERVAL
  · simp [doBackgroundSync, h, replayed, removedIds, callsNetwork]
  · simp [doBackgroundSync, h, syncTry, referenceStorage, getOfflineReports, replayLoop,
      replayed, removedIds, callsNetwork]

/-- A suppressed call of `doBackgroundSync` keeps `lastSyncTime`. -/
theorem doBackgroundSync_lastSyncTime_of_skip (p : Platform) (st : Storage)
    (lastSyncTime now : Int) (hskip : now - lastSyncTime < MIN_SYNC_INTERVAL) :
    (doBackgroundSync p st lastSyncTime now).lastSyncTime = lastSyncTime := by
  unfold doBackgroundSync
  rw [if_pos hskip]

/-- A sequence of suppressed triggers keeps `lastSyncTime`. -/
theorem lastSyncTimeAfter_of_all_skipped (lastSyncTime : Int)
    (triggers : List (Platform × Storage × Int))
    (hskip : ∀ t ∈ triggers, t.2.2 - lastSyncTime < MIN_SYNC_INTERVAL) :
    lastSyncTimeAfter lastSyncTime triggers = lastSyncTime := by
  induction triggers with
  | nil => rfl
  | cons t rest ih =>
    unfold lastSyncTimeAfter at ih ⊢
    rw [List.foldl_cons,
      doBackgroundSync_lastSyncTime_of_skip t.1 t.2.1 lastSyncTime t.2.2
        (hskip t (List.mem_cons_self _ _))]
    exact ih (fun x hx => hskip x (List.mem_cons_of_mem _ hx))

/-- A call of `doBackgroundSync` that is not throttled reads the queue. -/
theorem doBackgroundSync_reads_queue_of_run (p : Platform) (st : Storage)
    (lastSyncTime now : Int) (hrun : MIN_SYNC_INTERVAL ≤ now - lastSyncTime) :
    Effect.getOfflineReports ∈ (doBackgroundSync p st lastSyncTime now).effects := by
  have hnot : ¬ (now - lastSyncTime < MIN_SYNC_INTERVAL) := not_lt.2 hrun
  unfold doBackgroundSync
  rw [if_neg hnot]
  unfold syncTry
  cases st.getOfflineReports <;> simp

/-- C23. A suppressed trigger leaves `lastSyncTime` unchanged, so the window
is measured from the last pass that executed: after any sequence of triggers
that all arrive less than five minutes after that pass, however closely they
follow each other, `lastSyncTime` is still the time of that pass, and a
trigger arriving five minutes or more after it executes a pass. -/
theorem sync_window_measured_from_last_pass (p : Platform) (st : Storage)
    (lastSyncTime now : Int) (triggers : List (Platform × Storage × Int)) :
    (now - lastSyncTime < 300000 →
      (doBackgroundSync p st lastSyncTime now).lastSyncTime = lastSyncTime) ∧
    ((∀ t ∈ triggers, t.2.2 - lastSyncTime < 300000) →
      lastSyncTimeAfter lastSyncTime triggers = lastSyncTime ∧
      (300000 ≤ now - lastSyncTime →
        Effect.getOfflineReports ∈
          (doBackgroundSync p st (lastSyncTimeAfter lastSyncTime triggers) now).effects ∧
        (doBackgroundSync p st (lastSyncTimeAfter lastSyncTime triggers) now).lastSyncTime
          = now)) := by
  have hmin : MIN_SYNC_INTERVAL = 300000 := by decide
  constructor
  · intro hskip
    exact doBackgroundSync_lastSyncTime_of_skip p st lastSyncTime now (by rw [hmin]; exact hskip)
  · intro hall
    have hkeep := lastSyncTimeAfter_of_all_skipped lastSyncTime triggers
      (fun t ht => by rw [hmin]; exact hall t ht)
    refine ⟨hkeep, ?_⟩
    intro hrun
    rw [hkeep]
    have hrun' : MIN_SYNC_INTERVAL ≤ now - lastSyncTime := by rw [hmin]; exact hrun
    exact ⟨doBackgroundSync_reads_queue_of_run p st lastSyncTime now hrun',
      doBackgroundSync_lastSyncTime_of_run p st lastSyncTime now hrun'⟩

/-- C23, at a pass at time 0, suppressed triggers at 100000, 200000 and
299999 ms, and a trigger at 300000 ms, one millisecond after the last of
them: it executes. -/
theorem sync_window_measured_from_last_pass_witness :
    lastSyncTimeAfter 0
      [(onlinePlatform, threeQueued, 100000), (onlinePlatform, threeQueued, 200000),
        (onlinePlatform, threeQueued, 299999)] = 0 ∧
    (doBackgroundSync onlinePlatform threeQueued
      (lastSyncTimeAfter 0
        [(onlinePlatform, threeQueued, 100000), (onlinePlatform, threeQueued, 200000),
          (onlinePlatform, threeQueued, 299999)]) 300000).lastSyncTime = 300000 :=
  have h := (sync_window_measured_from_last_pass onlinePlatform threeQueued 0 300000
    [(onlinePlatform, threeQueued, 100000), (onlinePlatform, threeQueued, 200000),
      (onlinePlatform, threeQueued, 299999)]).2 (by decide)
  ⟨h.1, (h.2 (by decide)).2⟩

/-- C24. A pass records its time whatever happens next: when the pass fails
as a whole (`getOfflineReports` throws) or when no replay of the batch is
acknowledged, nothing is removed from the queue, `lastSyncTime` is the time of
the pass all the same, and every trigger arriving within the next five minutes
is a no-op. -/
theorem sync_failed_pass_still_throttles (p1 p2 : Platform) (st1 st2 : Storage)
    (lastSyncTime t1 t2 : Int) (hpass : MIN_SYNC_INTERVAL ≤ t1 - lastSyncTime)
    (hfail : (∃ reason, st1.getOfflineReports = .rejected reason) ∨
      (∃ batch, st1.getOfflineReports = .fulfilled batch ∧
        ∀ idx report, replayAcknowledged p1 idx report = false))
    (hgap : 0 ≤ t2 - t1 ∧ t2 - t1 < 300000) :
    removedIds (doBackgroundSync p1 st1 lastSyncTime t1).effects = [] ∧
    (doBackgroundSync p1 st1 lastSyncTime t1).lastSyncTime = t1 ∧
    doBackgroundSync p2 st2 (doBackgroundSync p1 st1 lastSyncTime t1).lastSyncTime t2 =
      ⟨t1, .fulfilled (), []⟩ := by
  have hlast := doBackgroundSync_lastSyncTime_of_run p1 st1 lastSyncTime t1 hpass
  have hnot : ¬ (t1 - lastSyncTime < MIN_SYNC_INTERVAL) := not_lt.2 hpass
  refine ⟨?_, hlast, ?_⟩
  · rcases hfail with ⟨reason, hq⟩ | ⟨batch, hq, hnone⟩
    · unfold doBackgroundSync
      rw [if_neg hnot]
      simp [syncTry, hq, removedIds]
    · rw [doBackgroundSync_effects_of_run p1 st1 lastSyncTime t1 batch hpass hq]
      have hcons : removedIds (Effect.getOfflineReports :: replayLoop p1 st1 0 batch) =
          removedIds (replayLoop p1 st1 0 batch) := by
        simp [removedIds]
      rw [hcons, removedIds_replayLoop]
      simp [hnone]
  · rw [hlast]
    have hlt : t2 - t1 < MIN_SYNC_INTERVAL := by
      have h := hgap.2
      simpa [MIN_SYNC_INTERVAL] using h
    unfold doBackgroundSync
    rw [if_pos hlt]

/-- C24, at a pass whose queue read fails and a trigger 299999 ms later. -/
theorem sync_failed_pass_still_throttles_witness :
    (doBackgroundSync offlinePlatform brokenQueue 0 300000).lastSyncTime = 300000 ∧
    doBackgroundSync onlinePlatform threeQueued
      (doBackgroundSync offlinePlatform brokenQueue 0 300000).lastSyncTime 599999 =
      ⟨300000, .fulfilled (), []⟩ :=
  have h := sync_failed_pass_still_throttles offlinePlatform onlinePlatform brokenQueue
    threeQueued 0 300000 599999 (by decide) (Or.inl ⟨"IndexedDB", rfl⟩) (by decide)
  ⟨h.2.1, h.2.2⟩

/-- An entry `cache.addAll` keeps is stored under the request of its URL. -/
theorem addAllEntry_request (p : Platform) (url : String) (e : Request × Response)
    (h : addAllEntry p url = some e) : e.1 = manifestRequest url := by
  unfold addAllEntry at h
  split at h
  · split_ifs at h
    simp only [Option.some.injEq] at h
    rw [← h]
  · simp at h

/-- The entries `cache.addAll` writes are stored under the URLs it was given. -/
theorem addAllEntries_urls (p : Platform) (urls : List String)
    (entries : List (Request × Response)) (h : addAllEntries p urls = some entries) :
    ∀ e ∈ entries, e.1.url ∈ urls := by
  induction urls generalizing entries with
  | nil =>
    simp only [addAllEntries, Option.some.injEq] at h
    subst h
    intro e he
    simp at he
  | cons u rest ih =>
    rw [addAllEntries] at h
    cases h1 : addAllEntry p u with
    | none => simp [h1] at h
    | some a =>
      cases h2 : addAllEntries p rest with
      | none => simp [h1, h2] at h
      | some es =>
        simp only [h1, h2, Option.some.injEq] at h
        subst h
        intro e he
        rcases List.mem_cons.1 he with rfl | hrest
        · rw [addAllEntry_request p u e h1]
          exact List.mem_cons_self _ _
        · exact List.mem_cons_of_mem _ (ih es h2 e hrest)

/-- Writing entries stored under manifest URLs to a storage holding only
such entries leaves a storage holding only such entries. -/
theorem manifestOnly_putAllIn (name : String) (entries : List (Request × Response))
    (hentries : ∀ e ∈ entries, e.1.url ∈ urlsToCache) (cs : CacheStorage)
    (h : ∀ s ∈ cs, ∀ e ∈ s.2, e.1.url ∈ urlsToCache) :
    ∀ s ∈ cs.putAllIn name entries, ∀ e ∈ s.2, e.1.url ∈ urlsToCache := by
  intro s hs e he
  rw [CacheStorage.putAllIn_eq_map] at hs
  obtain ⟨t, ht, rfl⟩ := List.mem_map.1 hs
  by_cases htn : t.1 = name
  · simp only [htn, beq_self_eq_true, if_true] at he
    have hfold : ∀ (l : List (Request × Response)) (c : Cache),
        (∀ x ∈ l, x.1.url ∈ urlsToCache) → (∀ x ∈ c, x.1.url ∈ urlsToCache) →
        ∀ x ∈ l.foldl (fun c e => Cache.put c e.1 e.2) c, x.1.url ∈ urlsToCache := by
      intro l
      induction l with
      | nil => intro c _ hc; exact hc
      | cons a rest ih =>
        intro c hl hc
        rw [List.foldl_cons]
        apply ih _ (fun x hx => hl x (List.mem_cons_of_mem _ hx))
        intro x hx
        simp only [Cache.put, List.mem_append, List.mem_filter, List.mem_singleton] at hx
        rcases hx with hx | hx
        · exact hc x hx.1
        · rw [hx]
          exact hl a (List.mem_cons_self _ _)
    exact hfold entries t.2 hentries (h t ht) e he
  · have hne : (t.1 == name) = false := by simpa using htn
    simp only [hne, Bool.false_eq_true, if_false] at he
    exact h t ht e he

/-- Opening a store adds no entry to a storage holding only manifest entries. -/
theorem manifestOnly_openStore (name : String) (cs : CacheStorage)
    (h : ∀ s ∈ cs, ∀ e ∈ s.2, e.1.url ∈ urlsToCache) :
    ∀ s ∈ cs.openStore name, ∀ e ∈ s.2, e.1.url ∈ urlsToCache := by
  intro s hs e he
  unfold CacheStorage.openStore at hs
  split_ifs at hs
  · exact h s hs e he
  · rcases List.mem_append.1 hs with hs | hs
    · exact h s hs e he
    · simp only [List.mem_singleton] at hs
      subst hs
      simp at he

/-- Every cache storage produced by install alone holds only entries stored
under manifest URLs. -/
theorem manifestOnly_installedStorage (platforms : List Platform) :
    ∀ s ∈ installedStorage platforms, ∀ e ∈ s.2, e.1.url ∈ urlsToCache := by
  have hstep : ∀ (p : Platform) (cs : CacheStorage),
      (∀ s ∈ cs, ∀ e ∈ s.2, e.1.url ∈ urlsToCache) →
      ∀ s ∈ (installHandler p cs).storage, ∀ e ∈ s.2, e.1.url ∈ urlsToCache := by
    intro p cs h
    unfold installHandler
    split_ifs
    · exact h
    · cases hadd : addAllEntries p urlsToCache with
      | none => exact manifestOnly_openStore CACHE_NAME cs h
      | some entries =>
        exact manifestOnly_putAllIn CACHE_NAME entries
          (addAllEntries_urls p urlsToCache entries hadd) _
          (manifestOnly_openStore CACHE_NAME cs h)
  have hall : ∀ (l : List Platform) (cs : CacheStorage),
      (∀ s ∈ cs, ∀ e ∈ s.2, e.1.url ∈ urlsToCache) →
      ∀ s ∈ l.foldl (fun cs p => (installHandler p cs).storage) cs,
        ∀ e ∈ s.2, e.1.url ∈ urlsToCache := by
    intro l
    induction l with
    | nil => intro cs h; exact h
    | cons q rest ih =>
      intro cs h
      rw [List.foldl_cons]
      exact ih _ (hstep q cs h)
  exact hall platforms [] (fun s hs => by simp at hs)

/-- A cache storage holding only manifest entries answers no request for a
URL that, its fragment set aside, is not a manifest URL. -/
theorem lookup_none_of_manifestOnly (cs : CacheStorage) (query : Request)
    (h : ∀ s ∈ cs, ∀ e ∈ s.2, e.1.url ∈ urlsToCache)
    (hurl : withoutFragment query.url ∉ urlsToCache.map withoutFragment) :
    cs.lookup query = none := by
  unfold CacheStorage.lookup
  rw [List.findSome?_eq_none_iff]
  intro s hs
  unfold Cache.lookup
  rw [Option.map_eq_none', List.find?_eq_none]
  intro e he hmatch
  simp only [requestMatches, Bool.and_eq_true, beq_iff_eq] at hmatch
  exact hurl (List.mem_map.2 ⟨e.1.url, h s hs e he, hmatch.2⟩)

/-- C25, as stated, fails twice. After an install, a failed navigation to
`/#top`, a URL that is not in the manifest, is a cache hit, since the Cache API
sets the fragment aside: it gets the stored `/`, not the synthetic 503. And a
failed navigation to `/dashboard` gets the synthetic 500, not the synthetic
503 `Offline`, when the lookup of the offline page throws. -/
theorem install_then_failed_navigation_not_503 :
    topRequest.url ∉ urlsToCache ∧
    topRequest.mode = "navigate" ∧
    offlinePlatform.network topRequest = .rejected "Failed to fetch" ∧
    (fetchHandler offlinePlatform (installedStorage [onlinePlatform]) topRequest).settled =
      .fulfilled jsonResponse ∧
    jsonResponse ≠ synthetic 503 "Offline" ∧
    dashboardRequest.url ∉ urlsToCache ∧
    dashboardRequest.mode = "navigate" ∧
    offlineLookupFailing.network dashboardRequest = .rejected "Failed to fetch" ∧
    (fetchHandler offlineLookupFailing (installedStorage [onlinePlatform])
      dashboardRequest).settled = .fulfilled (synthetic 500 "Service Worker Error") ∧
    synthetic 500 "Service Worker Error" ≠ synthetic 503 "Offline" := by
  decide

/-- C25, amended. The manifest `urlsToCache` does not contain `/offline.html`,
and no cache storage produced by install alone answers a request for it. In
every such storage a failed navigation to a URL that, its fragment set aside,
is not a manifest URL returns the synthetic 503 `Offline` when no cache lookup
throws, and the synthetic 500 when one does: never an offline page. -/
theorem install_alone_has_no_offline_page (platforms : List Platform) (p : Platform)
    (request : Request) (reason : String)
    (hurl : withoutFragment request.url ∉ urlsToCache.map withoutFragment)
    (hmode : request.mode = "navigate") (hnet : p.network request = .rejected reason) :
    "/offline.html" ∉ urlsToCache ∧
    withoutFragment "/offline.html" ∉ urlsToCache.map withoutFragment ∧
    (installedStorage platforms).lookup offlineKey = none ∧
    (p.matchFails request = false → p.matchFails offlineKey = false →
      (fetchHandler p (installedStorage platforms) request).settled =
        .fulfilled (synthetic 503 "Offline")) ∧
    (p.matchFails request = true ∨ p.matchFails offlineKey = true →
      (fetchHandler p (installedStorage platforms) request).settled =
        .fulfilled (synthetic 500 "Service Worker Error")) := by
  have hinv := manifestOnly_installedStorage platforms
  have hkey : withoutFragment "/offline.html" ∉ urlsToCache.map withoutFragment := by decide
  have hoffline : (installedStorage platforms).lookup offlineKey = none :=
    lookup_none_of_manifestOnly _ offlineKey hinv hkey
  have hmiss : (installedStorage platforms).lookup request = none :=
    lookup_none_of_manifestOnly _ request hinv hurl
  refine ⟨by decide, hkey, hoffline, ?_, ?_⟩
  · intro hlookup hoff
    simp [fetchHandler, asyncBody, outerTry, innerTry, innerCatch, hlookup, hmiss, hnet,
      hmode, hoff, hoffline]
  · intro hthrow
    by_cases hlookup : p.matchFails request = true
    · simp [fetchHandler, asyncBody, outerTry, hlookup]
    · have hlookup' : p.matchFails request = false := by simpa using hlookup
      have hoff : p.matchFails offlineKey = true := by
        rcases hthrow with h | h
        · exact absurd h hlookup
        · exact h
      simp [fetchHandler, asyncBody, outerTry, innerTry, innerCatch, hlookup', hmiss, hnet,
        hmode, hoff]

/-- C25, amended, at a failed navigation to `/dashboard#reports` after an
install. -/
theorem install_alone_has_no_offline_page_witness :
    withoutFragment "/dashboard#reports" ∉ urlsToCache.map withoutFragment ∧
    (fetchHandler offlinePlatform (installedStorage [onlinePlatform])
      { method := "GET", url := "/dashboard#reports", mode := "navigate" }).settled =
      .fulfilled (synthetic 503 "Offline") :=
  ⟨by decide,
    (install_alone_has_no_offline_page [onlinePlatform] offlinePlatform
      { method := "GET", url := "/dashboard#reports", mode := "navigate" }
      "Failed to fetch" (by decide) rfl rfl).2.2.2.1 rfl rfl⟩

/-- C26. When the cache lookup misses and the network call resolves to a
value that is absent or is not a `Response`, the handler returns the synthetic
503 `Service Unavailable`; it calls nothing after the network call, leaves no
cache write running and the cache storage is unchanged. -/
theorem fetch_non_response_gives_503 (p : Platform) (cs : CacheStorage) (request : Request)
    (value : JSValue) (hlookup : p.matchFails request = false)
    (hmiss : cs.lookup request = none) (hnet : p.network request = .fulfilled value)
    (hvalue : value = .undefined ∨ value = .notAResponse) :
    (fetchHandler p cs request).settled = .fulfilled (synthetic 503 "Service Unavailable") ∧
    (synthetic 503 "Service Unavailable").status = 503 ∧
    (synthetic 503 "Service Unavailable").statusText = "Service Unavailable" ∧
    (fetchHandler p cs request).effects = [.cachesMatch request, .fetch request] ∧
    (fetchHandler p cs request).detached = none ∧
    storageAfter p cs request = cs := by
  have hrun : fetchHandler p cs request =
      ⟨.fulfilled (synthetic 503 "Service Unavailable"),
        [.cachesMatch request, .fetch request], none⟩ := by
    rcases hvalue with h | h <;> subst h <;>
      simp [fetchHandler, asyncBody, outerTry, innerTry, hlookup, hmiss, hnet]
  refine ⟨by rw [hrun], rfl, rfl, by rw [hrun], by rw [hrun], ?_⟩
  simp [storageAfter, hrun]

/-- C26, at a network that answers with something that is not a `Response`. -/
theorem fetch_non_response_gives_503_witness :
    (fetchHandler garbledNetwork shellStorage apiRequest).settled =
      .fulfilled (synthetic 503 "Service Unavailable") ∧
    storageAfter garbledNetwork shellStorage apiRequest = shellStorage :=
  have h := fetch_non_response_gives_503 garbledNetwork shellStorage apiRequest .notAResponse
    rfl (by decide) rfl (Or.inr rfl)
  ⟨h.1, h.2.2.2.2.2⟩

end ServiceWorker
namespace Api

/-- The rejection handler rejects the error of a request that is marked. -/
theorem onRejected_of_marked (error : AxiosError) (h : error.config.retry = true) :
    onRejected error = .reject error (if error.status = some 429 then 2000 else 0) := by
  simp [onRejected, h]

/-- A call of `api` with a marked request sends it once and settles with what
the adapter answers. -/
theorem api_of_marked (transport : Transport) (fuel sent : Nat) (config : Config)
    (h : config.retry = true) :
    api transport (fuel + 1) sent config =
      some (match transport sent config with
        | .response response => ⟨.resolved response, sent + 1⟩
        | .failure failure => ⟨.rejected ⟨failure.status, failure.code, config⟩, sent + 1⟩) := by
  rw [api]
  cases ht : transport sent config with
  | response response => rfl
  | failure failure =>
    simp only
    rw [onRejected_of_marked _ h]

/-- C27. The response interceptor re-issues a failed request at most once. A
call of `api` always settles, after at most two requests. When the request is
not marked `_retry` and its first failure has status 429 or code
`NETWORK_ERROR` or `ECONNABORTED`, exactly one more request is sent, marked
`_retry`, and the call settles with the outcome of that one. A failure of a
request already marked `_retry`, and a first failure of any other kind, is
rejected with that error after the single request. -/
theorem interceptor_retries_at_most_once (transport : Transport) (config : Config)
    (fuel : Nat) :
    (∃ outcome, api transport (fuel + 2) 0 config = some outcome ∧ outcome.attempts ≤ 2) ∧
    (∀ failure, config.retry = false → transport 0 config = .failure failure →
      failure.status = some 429 ∨ failure.code = some "NETWORK_ERROR" ∨
        failure.code = some "ECONNABORTED" →
      (∀ response, transport 1 { config with retry := true } = .response response →
        api transport (fuel + 2) 0 config = some ⟨.resolved response, 2⟩) ∧
      (∀ second, transport 1 { config with retry := true } = .failure second →
        api transport (fuel + 2) 0 config =
          some ⟨.rejected ⟨second.status, second.code, { config with retry := true }⟩, 2⟩)) ∧
    (∀ failure, config.retry = true → transport 0 config = .failure failure →
      api transport (fuel + 2) 0 config =
        some ⟨.rejected ⟨failure.status, failure.code, config⟩, 1⟩) ∧
    (∀ failure, transport 0 config = .failure failure → failure.status ≠ some 429 →
      failure.code ≠ some "NETWORK_ERROR" → failure.code ≠ some "ECONNABORTED" →
      api transport (fuel + 2) 0 config =
        some ⟨.rejected ⟨failure.status, failure.code, config⟩, 1⟩) := by
  have hreissue : ∀ failure : Failure, config.retry = false →
      failure.status = some 429 ∨ failure.code = some "NETWORK_ERROR" ∨
        failure.code = some "ECONNABORTED" →
      ∃ waited, onRejected ⟨failure.status, failure.code, config⟩ =
        .reissue { config with retry := true } waited := by
    intro failure hfresh hkind
    by_cases h429 : failure.status = some 429
    · exact ⟨2000, by simp [onRejected, h429, hfresh]⟩
    · have hcode : failure.code = some "NETWORK_ERROR" ∨ failure.code = some "ECONNABORTED" := by
        rcases hkind with h | h | h
        · exact absurd h h429
        · exact Or.inl h
        · exact Or.inr h
      exact ⟨1000, by simp [onRejected, h429, hfresh, hcode]⟩
  have hretried : ∀ failure : Failure, config.retry = false →
      transport 0 config = .failure failure →
      failure.status = some 429 ∨ failure.code = some "NETWORK_ERROR" ∨
        failure.code = some "ECONNABORTED" →
      api transport (fuel + 2) 0 config =
        some (match transport 1 { config with retry := true } with
          | .response response => ⟨.resolved response, 2⟩
          | .failure second =>
            ⟨.rejected ⟨second.status, second.code, { config with retry := true }⟩, 2⟩) := by
    intro failure hfresh hfail hkind
    obtain ⟨waited, hw⟩ := hreissue failure hfresh hkind
    rw [api]
    simp only [hfail, hw]
    exact api_of_marked transport fuel 1 { config with retry := true } rfl
  have hrejected : ∀ failure : Failure, transport 0 config = .failure failure →
      (config.retry = true ∨ (failure.status ≠ some 429 ∧
        failure.code ≠ some "NETWORK_ERROR" ∧ failure.code ≠ some "ECONNABORTED")) →
      api transport (fuel + 2) 0 config =
        some ⟨.rejected ⟨failure.status, failure.code, config⟩, 1⟩ := by
    intro failure hfail hwhy
    rw [api]
    simp only [hfail]
    rcases hwhy with h | ⟨h1, h2, h3⟩
    · rw [onRejected_of_marked _ h]
    · simp [onRejected, h1, h2, h3]
  refine ⟨?_, ?_, ?_, ?_⟩
  · cases ht : transport 0 config with
    | response response => exact ⟨⟨.resolved response, 1⟩, by rw [api]; simp [ht], by simp⟩
    | failure failure =>
      by_cases hkind : config.retry = false ∧ (failure.status = some 429 ∨
          failure.code = some "NETWORK_ERROR" ∨ failure.code = some "ECONNABORTED")
      · refine ⟨_, hretried failure hkind.1 ht hkind.2, ?_⟩
        cases transport 1 { config with retry := true } <;> simp
      · refine ⟨_, hrejected failure ht ?_, by simp⟩
        by_cases hfresh : config.retry = true
        · exact Or.inl hfresh
        · right
          have hf : config.retry = false := by simpa using hfresh
          refine ⟨fun h => hkind ⟨hf, Or.inl h⟩, fun h => hkind ⟨hf, Or.inr (Or.inl h)⟩,
            fun h => hkind ⟨hf, Or.inr (Or.inr h)⟩⟩
  · intro failure hfresh hfail hkind
    have h := hretried failure hfresh hfail hkind
    constructor
    · intro response hr
      rw [h, hr]
    · intro second hs
      rw [h, hs]
  · intro failure hmarked hfail
    exact hrejected failure hfail (Or.inl hmarked)
  · intro failure hfail h1 h2 h3
    exact hrejected failure hfail (Or.inr ⟨h1, h2, h3⟩)

/-- C27, at a backend that always answers 429 (two requests, then the error)
and at a request that times out once (two requests, then the response). -/
theorem interceptor_retries_at_most_once_witness :
    api alwaysRateLimited 5 0 freshConfig =
      some ⟨.rejected ⟨some 429, none, ⟨"/reports", "get", true⟩⟩, 2⟩ ∧
    api timesOutOnce 5 0 freshConfig = some ⟨.resolved ⟨200, "ok"⟩, 2⟩ :=
  ⟨((interceptor_retries_at_most_once alwaysRateLimited freshConfig 3).2.1
      ⟨some 429, none⟩ rfl rfl (Or.inl rfl)).2 ⟨some 429, none⟩ rfl,
   ((interceptor_retries_at_most_once timesOutOnce freshConfig 3).2.1
      ⟨none, some "ECONNABORTED"⟩ rfl rfl (Or.inr (Or.inr rfl))).1 ⟨200, "ok"⟩ rfl⟩

end Api

namespace ReportForm

/-- C28, as stated, fails: an image of exactly 5 MB, whose size is not less
than 5 MB, is accepted and replaces the stored image, without a toast. -/
theorem five_megabyte_image_accepted :
    fiveMegabyteImage.size = 5 * 1024 * 1024 ∧
    ¬ (fiveMegabyteImage.size < 5 * 1024 * 1024) ∧
    startsWith fiveMegabyteImage.type "image/" = true ∧
    handleImageChange formWithImage (some fiveMegabyteImage) =
      { formWithImage with image := some fiveMegabyteImage } ∧
    (handleImageChange formWithImage (some fiveMegabyteImage)).toasts = [] := by
  decide

/-- C28, amended. `handleImageChange` accepts a selected file, storing it as
the image and changing nothing else, exactly when its size is at most 5 MB
(5*1024*1024 bytes) and its MIME type starts with `image/`; for every other
file it shows one error toast, clears the input and leaves the stored image
unchanged. -/
theorem handleImageChange_accepts_iff (st : FormState) (file : File) :
    (file.size ≤ 5 * 1024 * 1024 ∧ startsWith file.type "image/" = true →
      handleImageChange st (some file) = { st with image := some file }) ∧
    (¬ (file.size ≤ 5 * 1024 * 1024 ∧ startsWith file.type "image/" = true) →
      (handleImageChange st (some file)).image = st.image ∧
      (handleImageChange st (some file)).inputValue = "" ∧
      (handleImageChange st (some file)).toasts = st.toasts ++
        [⟨if file.size > 5 * 1024 * 1024 then "Image size must be less than 5MB"
          else "Please select a valid image file", "error"⟩]) := by
  constructor
  · intro h
    have hsize : ¬ (file.size > 5 * 1024 * 1024) := not_lt.2 h.1
    simp [handleImageChange, hsize, h.2]
  · intro h
    by_cases hsize : file.size > 5 * 1024 * 1024
    · simp [handleImageChange, hsize]
    · have htype : startsWith file.type "image/" = false := by
        cases ht : startsWith file.type "image/"
        · rfl
        · exact absurd ⟨not_lt.1 hsize, ht⟩ h
      simp [handleImageChange, hsize, htype]

/-- C28, amended, at an image of exactly 5 MB (accepted) and at one byte more
(refused). -/
theorem handleImageChange_accepts_iff_witness :
    handleImageChange formWithImage (some fiveMegabyteImage) =
      { formWithImage with image := some fiveMegabyteImage } ∧
    (handleImageChange formWithImage (some ⟨"big.png", 5 * 1024 * 1024 + 1, "image/png"⟩)).image
      = formWithImage.image :=
  ⟨(handleImageChange_accepts_iff formWithImage fiveMegabyteImage).1 (by decide),
   ((handleImageChange_accepts_iff formWithImage
      ⟨"big.png", 5 * 1024 * 1024 + 1, "image/png"⟩).2 (by decide)).1⟩

end ReportForm

namespace App

/-- C30. For every auth state: `/admin` renders `AdminDashboard` if and only
if there is a user whose role is `admin`, `/dashboard` renders
`UserDashboard` and `/profile` renders `UserProfile` if and only if a user is
present, and in every other case each of the three routes renders the
login/registration form. A user the token effect builds from a token it cannot
decode has no role: it sees the dashboard and the profile, not the admin
page. -/
theorem routes_guarded (user : Option User) :
    (route user "/admin" = some .AdminDashboard ↔ ∃ u, user = some u ∧ u.role = some "admin") ∧
    (route user "/dashboard" = some .UserDashboard ↔ ∃ u, user = some u) ∧
    (route user "/profile" = some .UserProfile ↔ ∃ u, user = some u) ∧
    (route user "/admin" = some .AdminDashboard ∨ route user "/admin" = some .AuthForms) ∧
    (route user "/dashboard" = some .UserDashboard ∨ route user "/dashboard" = some .AuthForms) ∧
    (route user "/profile" = some .UserProfile ∨ route user "/profile" = some .AuthForms) ∧
    (∀ (jwtDecode : String → Option Claims) (token : String),
      token ≠ "" → jwtDecode token = none →
      route (tokenEffect jwtDecode (some token)) "/admin" = some .AuthForms ∧
      route (tokenEffect jwtDecode (some token)) "/dashboard" = some .UserDashboard) := by
  have hadmin : route user "/admin" =
      some (if (user.bind (fun u => u.role)) = some "admin" then .AdminDashboard
        else .AuthForms) := by
    simp [route]
  have hdash : route user "/dashboard" =
      some (if user.isSome then .UserDashboard else .AuthForms) := by
    simp [route]
  have hprofile : route user "/profile" =
      some (if user.isSome then .UserProfile else .AuthForms) := by
    simp [route]
  refine ⟨?_, ?_, ?_, ?_, ?_, ?_, ?_⟩
  · rw [hadmin]
    cases user with
    | none => simp
    | some u => by_cases h : u.role = some "admin" <;> simp [h]
  · rw [hdash]
    cases user <;> simp
  · rw [hprofile]
    cases user <;> simp
  · rw [hadmin]
    split_ifs <;> simp
  · rw [hdash]
    split_ifs <;> simp
  · rw [hprofile]
    split_ifs <;> simp
  · intro jwtDecode token htoken hdecode
    simp [route, tokenEffect, htoken, hdecode]

/-- C30, at an administrator, at a user whose token could not be decoded and
at no user. -/
theorem routes_guarded_witness :
    route (some adminUser) "/admin" = some .AdminDashboard ∧
    route (some undecodedUser) "/admin" = some .AuthForms ∧
    route none "/dashboard" = some .AuthForms ∧
    route (tokenEffect (fun _ => none) (some "opaque-token")) "/dashboard" =
      some .UserDashboard :=
  ⟨(routes_guarded (some adminUser)).1.2 ⟨adminUser, rfl, rfl⟩, by decide, by decide,
    ((routes_guarded none).2.2.2.2.2.2 (fun _ => none) "opaque-token" (by decide) rfl).2⟩

end App

namespace ReportList

/-- The test `includes` of the code holds exactly when the part is a run of
consecutive characters of the text. -/
theorem includesChars_iff (text part : List Char) :
    includesChars text part = true ↔ part <:+: text := by
  induction text with
  | nil =>
    rw [includesChars, List.infix_nil]
    cases part <;> simp
  | cons c rest ih =>
    rw [includesChars, Bool.or_eq_true, List.infix_cons_iff, ih, List.isPrefixOf_iff_prefix]

/-- The lower-case `includes` of the code is the case-insensitive match of the
claim. -/
theorem includes_eq_occursIgnoringCase (toLowerCase : String → String) (term text : String) :
    includes (toLowerCase text) (toLowerCase term) = occursIgnoringCase toLowerCase term text := by
  unfold includes occursIgnoringCase
  cases h : includesChars (toLowerCase text).toList (toLowerCase term).toList
  · have hnot : ¬ ((toLowerCase term).toList <:+: (toLowerCase text).toList) := by
      intro hin
      rw [(includesChars_iff _ _).2 hin] at h
      exact absurd h (by simp)
    exact (decide_eq_false hnot).symm
  · exact (decide_eq_true ((includesChars_iff _ _).1 h)).symm

/-- The callback of the search filter computes the search of the claim. -/
theorem matchesSearch_eq (toLowerCase : String → String) (term : String) (report : Report) :
    matchesSearch toLowerCase term report = searchTermMatches toLowerCase term report := by
  have hfield : ∀ field : Option String,
      fieldIncludes toLowerCase field term = field.any (occursIgnoringCase toLowerCase term) := by
    intro field
    cases field with
    | none => rfl
    | some text => exact includes_eq_occursIgnoringCase toLowerCase term text
  have htags : (match report.tags with
      | some tags => tags.any (fun tag => includes (toLowerCase tag) (toLowerCase term))
      | none => false) = (report.tags.getD []).any (occursIgnoringCase toLowerCase term) := by
    cases report.tags with
    | none => rfl
    | some tags =>
      simp only [Option.getD_some]
      congr 1
      funext tag
      exact includes_eq_occursIgnoringCase toLowerCase term tag
  unfold matchesSearch searchTermMatches
  rw [hfield, hfield, hfield, htags]

/-- A new array leaves the arrays that existed as they were. -/
theorem Heap.read_alloc_of_lt (h : Heap) (items : List Report) (ref : Nat)
    (hlt : ref < h.arrays.length) : (h.alloc items).1.read ref = h.read ref := by
  simp [Heap.alloc, Heap.read, List.getD_eq_getElem?_getD, List.getElem?_append_left hlt]

/-- A new array holds the elements it was made of. -/
theorem Heap.read_alloc (h : Heap) (items : List Report) :
    (h.alloc items).1.read (h.alloc items).2 = items := by
  simp [Heap.alloc, Heap.read, List.getD_eq_getElem?_getD]

/-- An array changed in place holds the new elements. -/
theorem Heap.read_write_self (h : Heap) (ref : Nat) (items : List Report)
    (hin : ref < h.arrays.length) : (h.write ref items).read ref = items := by
  simp [Heap.write, Heap.read, List.getD_eq_getElem?_getD, List.getElem?_set_self hin]

/-- A change in place of one array leaves the other arrays as they were. -/
theorem Heap.read_write_of_ne (h : Heap) (ref other : Nat) (items : List Report)
    (hne : ref ≠ other) : (h.write ref items).read other = h.read other := by
  simp [Heap.write, Heap.read, List.getD_eq_getElem?_getD, List.getElem?_set_ne hne]

/-- What a guarded filter leaves: `filtered` refers to an array made after
those of the initial memory `h`, holding the elements that pass the test when
the filter is active, and the arrays of `h` are as they were. -/
theorem filterStep_spec (h : Heap) (value : String) (test : Report → Bool) (hf : Heap × Nat)
    (items : List Report) (hnew : h.arrays.length ≤ hf.2) (hin : hf.2 < hf.1.arrays.length)
    (hread : hf.1.read hf.2 = items)
    (hkept : ∀ ref, ref < h.arrays.length → hf.1.read ref = h.read ref) :
    h.arrays.length ≤ (filterStep value test hf).2 ∧
    (filterStep value test hf).2 < (filterStep value test hf).1.arrays.length ∧
    (filterStep value test hf).1.read (filterStep value test hf).2 =
      items.filter (fun report => decide (value = "") || test report) ∧
    ∀ ref, ref < h.arrays.length → (filterStep value test hf).1.read ref = h.read ref := by
  unfold filterStep
  by_cases hv : value = ""
  · simp only [hv, ne_eq, not_true_eq_false, if_false, decide_True, Bool.true_or]
    refine ⟨hnew, hin, ?_, hkept⟩
    rw [hread, List.filter_true]
  · simp only [ne_eq, hv, not_false_eq_true, if_true, decide_False, Bool.false_or]
    refine ⟨?_, ?_, ?_, ?_⟩
    · exact le_trans hnew (le_of_lt hin)
    · simp [Heap.alloc]
    · rw [Heap.read_alloc, hread]
    · intro ref hlt
      rw [Heap.read_alloc_of_lt _ _ _ (lt_of_lt_of_le hlt (le_trans hnew (le_of_lt hin)))]
      exact hkept ref hlt

/-- What the effect leaves: a reference to an array made after those of the
initial memory, holding the sorted reports that pass the tests of the code,
and the arrays of the initial memory as they were. -/
theorem filterEffect_spec (c : Comparison) (toLowerCase : String → String) (f : Filters)
    (h : Heap) (reports : Nat) :
    h.arrays.length ≤ (filterEffect c toLowerCase f h reports).2 ∧
    (filterEffect c toLowerCase f h reports).1.read (filterEffect c toLowerCase f h reports).2 =
      sort c f.sortOrder ((h.read reports).filter (fun report =>
        (decide (f.priorityFilter = "") || decide (report.priority = some f.priorityFilter)) &&
        ((decide (f.categoryFilter = "") || decide (report.category = some f.categoryFilter)) &&
        ((decide (f.statusFilter = "") || decide (report.status = some f.statusFilter)) &&
        (decide (f.searchTerm = "") || matchesSearch toLowerCase f.searchTerm report))))) ∧
    ∀ ref, ref < h.arrays.length →
      (filterEffect c toLowerCase f h reports).1.read ref = h.read ref := by
  have h0 : h.arrays.length ≤ (h.alloc (h.read reports)).2 ∧
      (h.alloc (h.read reports)).2 < (h.alloc (h.read reports)).1.arrays.length ∧
      (h.alloc (h.read reports)).1.read (h.alloc (h.read reports)).2 = h.read reports ∧
      ∀ ref, ref < h.arrays.length → (h.alloc (h.read reports)).1.read ref = h.read ref :=
    ⟨le_refl _, by simp [Heap.alloc], Heap.read_alloc _ _,
      fun ref hlt => Heap.read_alloc_of_lt _ _ _ hlt⟩
  have h1 := filterStep_spec h f.searchTerm (matchesSearch toLowerCase f.searchTerm) _ _
    h0.1 h0.2.1 h0.2.2.1 h0.2.2.2
  have h2 := filterStep_spec h f.statusFilter (fun report => report.status = some f.statusFilter)
    _ _ h1.1 h1.2.1 h1.2.2.1 h1.2.2.2
  have h3 := filterStep_spec h f.categoryFilter
    (fun report => report.category = some f.categoryFilter) _ _ h2.1 h2.2.1 h2.2.2.1 h2.2.2.2
  have h4 := filterStep_spec h f.priorityFilter
    (fun report => report.priority = some f.priorityFilter) _ _ h3.1 h3.2.1 h3.2.2.1 h3.2.2.2
  have hlast : ∀ (hf : Heap × Nat) (items : List Report),
      h.arrays.length ≤ hf.2 → hf.2 < hf.1.arrays.length → hf.1.read hf.2 = items →
      (∀ ref, ref < h.arrays.length → hf.1.read ref = h.read ref) →
      (hf.1.write hf.2 (sort c f.sortOrder (hf.1.read hf.2))).read hf.2 =
        sort c f.sortOrder items ∧
      ∀ ref, ref < h.arrays.length →
        (hf.1.write hf.2 (sort c f.sortOrder (hf.1.read hf.2))).read ref = h.read ref := by
    intro hf items hnew hin hread hkept
    constructor
    · rw [Heap.read_write_self _ _ _ hin, hread]
    · intro ref hlt
      rw [Heap.read_write_of_ne _ _ _ _
        (fun heq : hf.2 = ref => absurd (le_of_le_of_eq hnew heq) (not_le.2 hlt))]
      exact hkept ref hlt
  have hend := hlast _ _ h4.1 h4.2.1 h4.2.2.1 h4.2.2.2
  refine ⟨h4.1, ?_, hend.2⟩
  have hsorted := hend.1
  simp only [List.filter_filter] at hsorted
  exact hsorted

/-- C29. For every list of reports and every setting of the search term and
of the status, category and priority filters, whatever the sort order, the
comparisons and the lower-casing, the filtered list the effect computes is a
rearrangement of the input reports that satisfy all active filters (an empty
filter matches everything; the search term matches case-insensitively on
description, category, any tag or address): it contains exactly those reports,
each as many times as it occurs in the input. The input array is not changed:
the effect sorts an array of its own, and every array that existed before it
ran holds the same elements afterwards. -/
theorem filterEffect_keeps_exactly_matching (c : Comparison) (toLowerCase : String → String)
    (f : Filters) (h : Heap) (reports : Nat) (hvalid : reports < h.arrays.length) :
    ((filterEffect c toLowerCase f h reports).1.read
        (filterEffect c toLowerCase f h reports).2).Perm
      ((h.read reports).filter (satisfiesFilters toLowerCase f)) ∧
    (∀ report, report ∈ (filterEffect c toLowerCase f h reports).1.read
        (filterEffect c toLowerCase f h reports).2 ↔
      report ∈ h.read reports ∧ satisfiesFilters toLowerCase f report = true) ∧
    (∀ report, ((filterEffect c toLowerCase f h reports).1.read
        (filterEffect c toLowerCase f h reports).2).count report =
      if satisfiesFilters toLowerCase f report = true then (h.read reports).count report
      else 0) ∧
    (filterEffect c toLowerCase f h reports).2 ≠ reports ∧
    (filterEffect c toLowerCase f h reports).1.read reports = h.read reports ∧
    (∀ ref, ref < h.arrays.length →
      (filterEffect c toLowerCase f h reports).1.read ref = h.read ref) := by
  obtain ⟨hnew, hread, hkept⟩ := filterEffect_spec c toLowerCase f h reports
  have hperm : ((filterEffect c toLowerCase f h reports).1.read
      (filterEffect c toLowerCase f h reports).2).Perm
      ((h.read reports).filter (satisfiesFilters toLowerCase f)) := by
    rw [hread]
    refine (List.perm_insertionSort _ _).trans ?_
    have hsame : (h.read reports).filter (fun report =>
        (decide (f.priorityFilter = "") || decide (report.priority = some f.priorityFilter)) &&
        ((decide (f.categoryFilter = "") || decide (report.category = some f.categoryFilter)) &&
        ((decide (f.statusFilter = "") || decide (report.status = some f.statusFilter)) &&
        (decide (f.searchTerm = "") || matchesSearch toLowerCase f.searchTerm report)))) =
        (h.read reports).filter (satisfiesFilters toLowerCase f) := by
      apply List.filter_congr
      intro report _
      simp only [satisfiesFilters, matchesSearch_eq]
      cases decide (f.searchTerm = "") <;>
        cases searchTermMatches toLowerCase f.searchTerm report <;>
        cases decide (f.statusFilter = "") <;>
        cases decide (report.status = some f.statusFilter) <;>
        cases decide (f.categoryFilter = "") <;>
        cases decide (report.category = some f.categoryFilter) <;>
        cases decide (f.priorityFilter = "") <;>
        cases decide (report.priority = some f.priorityFilter) <;> rfl
    rw [hsame]
  refine ⟨hperm, ?_, ?_, ?_, hkept reports hvalid, hkept⟩
  · intro report
    rw [hperm.mem_iff, List.mem_filter]
  · intro report
    rw [hperm.count_eq]
    by_cases hs : satisfiesFilters toLowerCase f report = true
    · rw [if_pos hs, List.count_filter hs]
    · rw [if_neg hs, List.count_eq_zero]
      intro hmem
      exact hs (List.mem_filter.1 hmem).2
  · intro heq
    exact absurd (heq ▸ hnew) (not_le.2 hvalid)

/-- C29, at two reports and the search term `TRASH`: the filtered list holds
the first report alone and the input array is as it was. -/
theorem filterEffect_keeps_exactly_matching_witness :
    (filterEffect byId asciiLower ⟨"TRASH", "", "", "", "desc"⟩ twoReportsHeap 0).1.read
        (filterEffect byId asciiLower ⟨"TRASH", "", "", "", "desc"⟩ twoReportsHeap 0).2 =
      [⟨"1", some "Trash pile", none, none, none, some "open", none⟩] ∧
    (filterEffect byId asciiLower ⟨"TRASH", "", "", "", "desc"⟩ twoReportsHeap 0).1.read 0 =
      twoReports :=
  have h := filterEffect_keeps_exactly_matching byId asciiLower ⟨"TRASH", "", "", "", "desc"⟩
    twoReportsHeap 0 (by decide)
  ⟨by decide, h.2.2.2.2.1⟩

end ReportList

end TrashTracker
